import Mathlib

/-!
Verification of the CFFilterQA analysis task (EventFiltering/PWGCF/CFFilterQA.cxx)
and the ft0Task (Common/Tasks/ft0Task.cxx) against their specification.

Numeric track/collision fields and configuration values are embedded as
rationals; the machine-float nature of the comparisons is immaterial to the
claims, which are order-theoretic and structural.  Fallible computations
(out-of-range `LabeledArray` lookups, the `LOG(fatal)` abort paths, and
`std::vector` indexing) are embedded in the `Option` monad.

The external `o2::tpc::BetheBlochAleph` function (DataFormatsTPC, outside this
repository) and the square-root routine from the math library are threaded as
explicit function parameters `bm : BBFun` and `msqrt : QFun`; none of the
claims depends on their actual values.
-/

namespace CFTrigger

/-- Enum `CFTrigger::ParticleSpecies` (CFFilterQA.cxx lines 52-57). -/
inductive ParticleSpecies
  | kProton
  | kDeuteron
  | kLambda
deriving DecidableEq

/-- Enum `CFTrigger::V0Daughters` (CFFilterQA.cxx lines 58-62). -/
inductive V0Daughters
  | kDaughPion
  | kDaughProton
deriving DecidableEq

end CFTrigger

namespace CFFilterQA

open CFTrigger

/-- External math functions: the ALEPH Bethe-Bloch parametrisation
`o2::tpc::BetheBlochAleph(bg, kp1, kp2, kp3, kp4, kp5)` lives in DataFormatsTPC,
outside this repository; it is threaded as an abstract parameter. -/
abbrev BBFun : Type := ℚ → ℚ → ℚ → ℚ → ℚ → ℚ → ℚ

/-- External square root (`std::sqrt`), threaded as an abstract parameter. -/
abbrev QFun : Type := ℚ → ℚ

/-- One row of the `ConfPtCuts` labelled array: columns
"Pt min", "Pt max", "P thres" (CFFilterQA.cxx lines 88, 113-116, 326-329). -/
structure PtRow where
  ptMin : ℚ
  ptMax : ℚ
  pThres : ℚ
deriving DecidableEq

/-- One row of `ConfPIDCuts` / `ConfPIDCutsAnti`: columns
"TPC min", "TPC max", "TOF min", "TOF max", "TPCTOF max"
(CFFilterQA.cxx lines 87, 96-101, 318-325). -/
structure PIDRow where
  tpcMin : ℚ
  tpcMax : ℚ
  tofMin : ℚ
  tofMax : ℚ
  tpctofMax : ℚ
deriving DecidableEq

/-- A (TPC min, TPC max) pair: rows of `ConfPIDRejection` and of
`ConfDaughPIDCuts` (CFFilterQA.cxx lines 102-104, 110-112, 334-337, 401-404). -/
structure MinMax where
  tpcMin : ℚ
  tpcMax : ℚ
deriving DecidableEq

/-- One row of `ConfPIDTPCTOFAvg`: columns "TPC Avg", "TOF Avg"
(CFFilterQA.cxx lines 85-86, 105-109, 338-341). -/
structure AvgRow where
  tpcAvg : ℚ
  tofAvg : ℚ
deriving DecidableEq

/-- The configurables of the `CFFilterQA` task struct (CFFilterQA.cxx lines
142-404).  `LabeledArray` configurables are embedded with their compile-time
shape: per-row records, one field per row.  V0-vertex configurables that no
live code reads are omitted. -/
structure Config where
  ConfIsRun3 : Bool
  ConfEvtSelectZvtx : Bool
  ConfEvtZvtx : ℚ
  ConfEvtOfflineCheck : Bool
  ConfCutBitPart : ℤ
  ConfCutBitAntiPart : ℤ
  ConfPidBitProton : ℤ
  ConfDeuteronThPVMom : Bool
  ConfUseManualPIDproton : Bool
  ConfPIDBBProton : String
  ConfPIDBBAntiProton : String
  ConfUseManualPIDdeuteron : Bool
  ConfPIDBBDeuteron : String
  ConfPIDBBAntiDeuteron : String
  ConfUseManualPIDpion : Bool
  ConfPIDBBPion : String
  ConfPIDBBAntiPion : String
  ConfUseManualPIDel : Bool
  ConfPIDBBElectron : String
  ConfPIDBBAntiElectron : String
  ConfUseManualPIDdaughterPion : Bool
  ConfUseManualPIDdaughterProton : Bool
  ConfRejectNotPropagatedTracks : Bool
  ConfTrkEta : ℚ
  nClusMinProton : ℚ
  nClusMinDeuteron : ℚ
  ConfTrkTPCfCls : ℚ
  ConfTrkTPCcRowsMin : ℚ
  ConfTrkTPCsClsMax : ℚ
  ConfTrkITSnclsMin : ℚ
  ConfTrkITSnclsIbMin : ℚ
  ConfTrkDCAxyMax : ℚ
  ConfTrkDCAzMax : ℚ
  ConfTrkRequireChi2MaxTPC : Bool
  ConfTrkRequireChi2MaxITS : Bool
  ConfTrkMaxChi2PerClusterTPC : ℚ
  ConfTrkMaxChi2PerClusterITS : ℚ
  ConfTrkTPCRefit : Bool
  ConfTrkITSRefit : Bool
  pidCutsProton : PIDRow
  pidCutsDeuteron : PIDRow
  pidCutsAntiProton : PIDRow
  pidCutsAntiDeuteron : PIDRow
  ConfPtCuts : ParticleSpecies → PtRow
  ConfRejectNOTDeuteron : Bool
  rejProton : MinMax
  rejPion : MinMax
  rejElectron : MinMax
  avgProton : AvgRow
  avgAntiProton : AvgRow
  avgDeuteron : AvgRow
  avgAntiDeuteron : AvgRow
  ConfDaughEta : ℚ
  ConfDaughTPCnclsMin : ℚ
  ConfDaughDCAMin : ℚ
  daughPIDPion : MinMax
  daughPIDProton : MinMax

/-- Lookup `ConfTPCNClustersMin->get("TPCNClusMin", partSpecies)`
(CFFilterQA.cxx line 653).  The underlying labelled array has one row and
two columns, "Proton" and "Deuteron" (lines 84, 117-118, 255-258); indexing
it with `kLambda` (= 2) reads past the end of the row, hence `none`. -/
def Config.getNClusMin (cfg : Config) : ParticleSpecies → Option ℚ
  | ParticleSpecies.kProton => some cfg.nClusMinProton
  | ParticleSpecies.kDeuteron => some cfg.nClusMinDeuteron
  | ParticleSpecies.kLambda => none

/-- Lookup `ConfPIDCuts->get(partSpecies, _)` (CFFilterQA.cxx lines 792-799).
The array has rows "Proton" and "Deuteron" only (lines 79, 318-321). -/
def Config.getPIDCuts (cfg : Config) : ParticleSpecies → Option PIDRow
  | ParticleSpecies.kProton => some cfg.pidCutsProton
  | ParticleSpecies.kDeuteron => some cfg.pidCutsDeuteron
  | ParticleSpecies.kLambda => none

/-- Lookup `ConfPIDCutsAnti->get(partSpecies, _)` (CFFilterQA.cxx lines
792-799); rows "AntiProton" and "AntiDeuteron" only (lines 80, 322-325). -/
def Config.getPIDCutsAnti (cfg : Config) : ParticleSpecies → Option PIDRow
  | ParticleSpecies.kProton => some cfg.pidCutsAntiProton
  | ParticleSpecies.kDeuteron => some cfg.pidCutsAntiDeuteron
  | ParticleSpecies.kLambda => none

/-- The fields a `FemtoFullTracks` row contributes to this task: exactly the
accessors CFFilterQA.cxx calls on a track. -/
structure Track where
  pt : ℚ
  eta : ℚ
  phi : ℚ
  p : ℚ
  sign : ℤ
  tpcInnerParam : ℚ
  tpcSignal : ℚ
  tpcNClsFound : ℚ
  tpcCrossedRowsOverFindableCls : ℚ
  tpcNClsCrossedRows : ℚ
  tpcNClsShared : ℚ
  itsNCls : ℚ
  itsNClsInnerBarrel : ℚ
  dcaXY : ℚ
  dcaZ : ℚ
  tpcChi2NCl : ℚ
  itsChi2NCl : ℚ
  hasTPC : Bool
  hasITS : Bool
  tpcNSigmaPr : ℚ
  tpcNSigmaDe : ℚ
  tpcNSigmaPi : ℚ
  tpcNSigmaEl : ℚ
  tofNSigmaPr : ℚ
  tofNSigmaDe : ℚ
deriving DecidableEq

/-- The fields of a `FemtoFullCollision` row read by the task, plus the
run number of its matched bunch crossing. -/
structure Col where
  posZ : ℚ
  sel8 : Bool
  multFV0M : ℚ
  multNTracksPV : ℚ
  runNumber : ℤ
deriving DecidableEq

/-- The mutable (non-configurable, non-framework) fields of the task struct:
the eight Bethe-Bloch parameter vectors (CFFilterQA.cxx line 409), the mass
constants (lines 610-614) and the run-number cache (lines 615-616). -/
structure ProcState where
  BBProton : List ℚ
  BBAntiproton : List ℚ
  BBDeuteron : List ℚ
  BBAntideuteron : List ℚ
  BBPion : List ℚ
  BBAntipion : List ℚ
  BBElectron : List ℚ
  BBAntielectron : List ℚ
  mMassElectron : ℚ
  mMassPion : ℚ
  mMassProton : ℚ
  mMassLambda : ℚ
  mMassDeuteron : ℚ
  currentRunNumber : ℤ
  lastRunNumber : ℤ
deriving DecidableEq

/-- `isSelectedEvent` (CFFilterQA.cxx lines 618-628). -/
def isSelectedEvent (cfg : Config) (col : Col) : Bool :=
  if cfg.ConfEvtSelectZvtx = true ∧ |col.posZ| > cfg.ConfEvtZvtx then false
  else if cfg.ConfEvtOfflineCheck = true ∧ col.sel8 = false then false
  else true

/-- `isSelectedTrack` (CFFilterQA.cxx lines 630-694).  The
`ConfTPCNClustersMin` lookup is the one fallible step (see
`Config.getNClusMin`); every other cut is a plain threshold comparison, in
source order. -/
def isSelectedTrack (cfg : Config) (t : Track) (s : ParticleSpecies) : Option Bool :=
  if t.pt < (cfg.ConfPtCuts s).ptMin then some false
  else if t.pt > (cfg.ConfPtCuts s).ptMax then some false
  else if |t.eta| > cfg.ConfTrkEta then some false
  else
    match cfg.getNClusMin s with
    | none => none
    | some nClusMin =>
      if t.tpcNClsFound < nClusMin then some false
      else if t.tpcCrossedRowsOverFindableCls < cfg.ConfTrkTPCfCls then some false
      else if t.tpcNClsCrossedRows < cfg.ConfTrkTPCcRowsMin then some false
      else if t.tpcNClsShared > cfg.ConfTrkTPCsClsMax then some false
      else if t.itsNCls < cfg.ConfTrkITSnclsMin then some false
      else if t.itsNClsInnerBarrel < cfg.ConfTrkITSnclsIbMin then some false
      else if |t.dcaXY| > cfg.ConfTrkDCAxyMax then some false
      else if |t.dcaZ| > cfg.ConfTrkDCAzMax then some false
      else if cfg.ConfRejectNotPropagatedTracks = true ∧ |t.dcaXY| > 1000 then some false
      else if cfg.ConfTrkRequireChi2MaxTPC = true ∧ t.tpcChi2NCl ≥ cfg.ConfTrkMaxChi2PerClusterTPC then some false
      else if cfg.ConfTrkRequireChi2MaxITS = true ∧ t.itsChi2NCl ≥ cfg.ConfTrkMaxChi2PerClusterITS then some false
      else if cfg.ConfTrkTPCRefit = true ∧ t.hasTPC = false then some false
      else if cfg.ConfTrkITSRefit = true ∧ t.hasITS = false then some false
      else some true

/-- `isSelectedV0Daughter` (CFFilterQA.cxx lines 696-737).  `nSigmaTPCDaug`
has entries (proton, pion), matching the `nSigmaTPCDaug[0]` / `[1]` accesses
at lines 723 and 726. -/
def isSelectedV0Daughter (cfg : Config) (t : Track) (charge : ℚ)
    (species : V0Daughters) (nSigmaTPCDaug : ℚ × ℚ) : Bool :=
  if charge < 0 ∧ t.sign > 0 then false
  else if charge > 0 ∧ t.sign < 0 then false
  else if |t.eta| > cfg.ConfDaughEta then false
  else if t.tpcNClsFound < cfg.ConfDaughTPCnclsMin then false
  else if |t.dcaXY| < cfg.ConfDaughDCAMin then false
  else
    let nSigmaTPC : ℚ :=
      match species with
      | V0Daughters.kDaughPion => nSigmaTPCDaug.2
      | V0Daughters.kDaughProton => nSigmaTPCDaug.1
    let row : MinMax :=
      match species with
      | V0Daughters.kDaughPion => cfg.daughPIDPion
      | V0Daughters.kDaughProton => cfg.daughPIDProton
    if nSigmaTPC < row.tpcMin ∨ nSigmaTPC > row.tpcMax then false
    else true

/-- `updatePID` (CFFilterQA.cxx lines 975-981).  The five Bethe-Bloch
parameters and the resolution are `BB[0]` through `BB[5]`; indexing is total
via `List.get?`, so a short vector yields `none`.  Rational division by zero
is the Lean convention `x / 0 = 0`; no claim depends on the quotient. -/
def updatePID (bm : BBFun) (t : Track) (bgScaling : ℚ) (BB : List ℚ) : Option ℚ :=
  match BB.get? 0, BB.get? 1, BB.get? 2, BB.get? 3, BB.get? 4, BB.get? 5 with
  | some b0, some b1, some b2, some b3, some b4, some b5 =>
    let expBethe := bm (t.tpcInnerParam * bgScaling) b0 b1 b2 b3 b4
    let expSigma := expBethe * b5
    some ((t.tpcSignal - expBethe) / expSigma)
  | _, _, _, _, _, _ => none

/-- The manual pion nSigma override of the `Rejection` branch
(CFFilterQA.cxx lines 816-822): starting from the nominal `tpcNSigmaPi`, the
two charge-guarded assignments behind six-entry checks, the second overriding
the first. -/
def manualPiSigma (bm : BBFun) (cfg : Config) (st : ProcState) (t : Track)
    (charge : ℤ) : Option ℚ :=
  if cfg.ConfUseManualPIDpion = true then
    let bgScalingPion := 1 / st.mMassPion
    let a1 : Option ℚ :=
      if st.BBPion.length = 6 ∧ 0 < charge then
        updatePID bm t bgScalingPion st.BBPion
      else some t.tpcNSigmaPi
    if st.BBAntipion.length = 6 ∧ charge < 0 then
      updatePID bm t bgScalingPion st.BBAntipion
    else a1
  else some t.tpcNSigmaPi

/-- The manual electron nSigma override of the `Rejection` branch
(CFFilterQA.cxx lines 823-829); note `BBElectron` is used for negative charge
and `BBAntielectron` for positive, as in the source. -/
def manualElSigma (bm : BBFun) (cfg : Config) (st : ProcState) (t : Track)
    (charge : ℤ) : Option ℚ :=
  if cfg.ConfUseManualPIDel = true then
    let bgScalingElectron := 1 / st.mMassElectron
    let a1 : Option ℚ :=
      if st.BBElectron.length = 6 ∧ charge < 0 then
        updatePID bm t bgScalingElectron st.BBElectron
      else some t.tpcNSigmaEl
    if st.BBAntielectron.length = 6 ∧ 0 < charge then
      updatePID bm t bgScalingElectron st.BBAntielectron
    else a1
  else some t.tpcNSigmaEl

/-- The final verdict of the `Rejection` branch (CFFilterQA.cxx lines
830-837): reject when any of the proton, pion or electron TPC nSigma values
falls strictly inside its `ConfPIDRejection` window. -/
def rejDecision (cfg : Config) (nSigmaTPC : ℚ × ℚ) (piOpt elOpt : Option ℚ)
    (isSelected : Bool) : Option Bool :=
  match piOpt, elOpt with
  | some nSigmaPi, some nSigmaEl =>
    if (cfg.rejProton.tpcMin < nSigmaTPC.1 ∧ nSigmaTPC.1 < cfg.rejProton.tpcMax) ∨
       (cfg.rejPion.tpcMin < nSigmaPi ∧ nSigmaPi < cfg.rejPion.tpcMax) ∨
       (cfg.rejElectron.tpcMin < nSigmaEl ∧ nSigmaEl < cfg.rejElectron.tpcMax) then
      some false
    else some isSelected
  | _, _ => none

/-- `isSelectedTrackPID` (CFFilterQA.cxx lines 739-840).  `nSigmaTPC` has
entries (proton, deuteron), matching `nSigmaTPC[0]` / `[1]`.  The `kLambda`
and unknown-species switch arms `LOG(fatal)` (lines 784-788), embedded as
`none`.  In the `Rejection` branch the function reads the task-struct fields
`BBPion`, `BBAntipion`, `BBElectron`, `BBAntielectron`, `mMassPion` and
`mMassElectron` (through `manualPiSigma` / `manualElSigma`), hence the
`st : ProcState` argument. -/
def isSelectedTrackPID (bm : BBFun) (msqrt : QFun) (cfg : Config) (st : ProcState)
    (t : Track) (s : ParticleSpecies) (rejection : Bool)
    (nSigmaTPC : ℚ × ℚ) (charge : ℤ) : Option Bool :=
  let pThres0 : Bool := decide (t.tpcInnerParam ≤ (cfg.ConfPtCuts s).pThres)
  let pThres : Bool :=
    if s = ParticleSpecies.kDeuteron ∧ cfg.ConfDeuteronThPVMom = true then
      decide (t.p ≤ (cfg.ConfPtCuts s).pThres)
    else pThres0
  let nSigmaOpt : Option ℚ :=
    match s with
    | ParticleSpecies.kProton =>
      if pThres = true then some nSigmaTPC.1
      else if 0 < charge then
        some (msqrt ((nSigmaTPC.1 - cfg.avgProton.tpcAvg) ^ 2 +
          (t.tofNSigmaPr - cfg.avgProton.tofAvg) ^ 2))
      else
        some (msqrt ((nSigmaTPC.1 - cfg.avgAntiProton.tpcAvg) ^ 2 +
          (t.tofNSigmaPr - cfg.avgAntiProton.tofAvg) ^ 2))
    | ParticleSpecies.kDeuteron =>
      if pThres = true then some nSigmaTPC.2
      else if 0 < charge then
        some (msqrt ((nSigmaTPC.2 - cfg.avgDeuteron.tpcAvg) ^ 2 +
          (t.tofNSigmaDe - cfg.avgDeuteron.tofAvg) ^ 2))
      else
        some (msqrt ((nSigmaTPC.2 - cfg.avgAntiDeuteron.tpcAvg) ^ 2 +
          (t.tofNSigmaDe - cfg.avgAntiDeuteron.tofAvg) ^ 2))
    | ParticleSpecies.kLambda => none
  match nSigmaOpt with
  | none => none
  | some nSigma =>
    match (if 0 < charge then cfg.getPIDCuts s else cfg.getPIDCutsAnti s) with
    | none => none
    | some row =>
      let isSelected : Bool :=
        if pThres = true then decide (row.tpcMin < nSigma ∧ nSigma < row.tpcMax)
        else decide (nSigma < row.tpctofMax)
      if rejection = true then
        rejDecision cfg nSigmaTPC (manualPiSigma bm cfg st t charge)
          (manualElSigma bm cfg st t charge) isSelected
      else some isSelected

/-- The content of the `TH1F` retrieved from the CCDB: the five Bethe-Bloch
bins "bb1".."bb5" and the "Resolution" bin (CFFilterQA.cxx lines 965-971). -/
structure BBHist where
  bb1 : ℚ
  bb2 : ℚ
  bb3 : ℚ
  bb4 : ℚ
  bb5 : ℚ
  resolution : ℚ
deriving DecidableEq

/-- `setValuesBB` (CFFilterQA.cxx lines 953-973).  `fetched` is the result of
the external CCDB retrieval `ccdbApi.retrieveFromTFileAny` for the configured
path and the bunch crossing's timestamp; a failed retrieval (`!h`) returns the
empty dummy vector, otherwise the six bin contents. -/
def setValuesBB (fetched : Option BBHist) : List ℚ :=
  match fetched with
  | none => []
  | some h => [h.bb1, h.bb2, h.bb3, h.bb4, h.bb5, h.resolution]

/-- The per-track recomputation of `nTPCSigmaP` / `nTPCSigmaN` at the top of
the track loop (CFFilterQA.cxx lines 1032-1048).  Both pairs start as the
nominal `(tpcNSigmaPr, tpcNSigmaDe)`; slot 0 (proton) and slot 1 (deuteron)
are overwritten by `updatePID` exactly when the corresponding manual-PID flag
is set and the stored Bethe-Bloch vector has six entries. -/
def computeNSigma (bm : BBFun) (cfg : Config) (st : ProcState) (t : Track) :
    Option ((ℚ × ℚ) × (ℚ × ℚ)) :=
  let base : ℚ × ℚ := (t.tpcNSigmaPr, t.tpcNSigmaDe)
  let p1 : Option (ℚ × ℚ) :=
    if cfg.ConfUseManualPIDproton = true ∧ st.BBProton.length = 6 then
      (updatePID bm t (1 / st.mMassProton) st.BBProton).map (fun v => (v, base.2))
    else some base
  let n1 : Option (ℚ × ℚ) :=
    if cfg.ConfUseManualPIDproton = true ∧ st.BBAntiproton.length = 6 then
      (updatePID bm t (1 / st.mMassProton) st.BBAntiproton).map (fun v => (v, base.2))
    else some base
  let p2 : Option (ℚ × ℚ) :=
    match p1 with
    | none => none
    | some p =>
      if cfg.ConfUseManualPIDdeuteron = true ∧ st.BBDeuteron.length = 6 then
        (updatePID bm t (1 / st.mMassDeuteron) st.BBDeuteron).map (fun v => (p.1, v))
      else some p
  let n2 : Option (ℚ × ℚ) :=
    match n1 with
    | none => none
    | some n =>
      if cfg.ConfUseManualPIDdeuteron = true ∧ st.BBAntideuteron.length = 6 then
        (updatePID bm t (1 / st.mMassDeuteron) st.BBAntideuteron).map (fun v => (n.1, v))
      else some n
  match p2, n2 with
  | some p, some n => some (p, n)
  | _, _ => none

/-- The run-change Bethe-Bloch refresh at the top of `process`
(CFFilterQA.cxx lines 989-1011).  `fetch` maps a CCDB path to the retrieval
result for the current bunch crossing.  Note the electron pair is guarded by
`ConfUseManualPIDpion` (line 1005), exactly as in the source. -/
def bbUpdateStep (fetch : String → Option BBHist) (cfg : Config) (st : ProcState)
    (runNumber : ℤ) : ProcState :=
  if cfg.ConfUseManualPIDproton = true ∨ cfg.ConfUseManualPIDdeuteron = true then
    let st1 := { st with currentRunNumber := runNumber }
    if st1.currentRunNumber ≠ st1.lastRunNumber then
      let st2 :=
        if cfg.ConfUseManualPIDproton = true ∨ cfg.ConfUseManualPIDdaughterProton = true then
          { st1 with BBProton := setValuesBB (fetch cfg.ConfPIDBBProton),
                     BBAntiproton := setValuesBB (fetch cfg.ConfPIDBBAntiProton) }
        else st1
      let st3 :=
        if cfg.ConfUseManualPIDdeuteron = true then
          { st2 with BBDeuteron := setValuesBB (fetch cfg.ConfPIDBBDeuteron),
                     BBAntideuteron := setValuesBB (fetch cfg.ConfPIDBBAntiDeuteron) }
        else st2
      let st4 :=
        if cfg.ConfUseManualPIDpion = true ∨ cfg.ConfUseManualPIDdaughterPion = true then
          { st3 with BBPion := setValuesBB (fetch cfg.ConfPIDBBPion),
                     BBAntipion := setValuesBB (fetch cfg.ConfPIDBBAntiPion) }
        else st3
      let st5 :=
        if cfg.ConfUseManualPIDpion = true then
          { st4 with BBElectron := setValuesBB (fetch cfg.ConfPIDBBElectron),
                     BBAntielectron := setValuesBB (fetch cfg.ConfPIDBBAntiElectron) }
        else st4
      { st5 with lastRunNumber := st5.currentRunNumber }
    else st1
  else st

/-- A histogram fill event: registry path and fill arguments. -/
abbrev Fill : Type := String × List ℚ

/-- A row of the `FemtoDreamCollisions` output table (CFFilterQA.cxx line
1021): `(posZ, multFV0M, multNTracksPV, -2, -2)`. -/
structure CollisionRow where
  posZ : ℚ
  multFV0M : ℚ
  multNTracksPV : ℚ
  spher : ℚ
  magField : ℚ
deriving DecidableEq

/-- A row of the `FemtoDreamParticles` output table (CFFilterQA.cxx lines
1093-1103 and 1123-1133): the kinematics, the cut bit, the PID bit and the
transverse DCA.  The framework-managed collision index, the particle-type tag,
the zeroed `childIDs` and the two trailing `0.f` placeholders carry no
task-dependent information and are omitted. -/
structure PartRow where
  pt : ℚ
  eta : ℚ
  phi : ℚ
  cutBit : ℤ
  pidBit : ℤ
  dcaXY : ℚ
deriving DecidableEq

/-- Everything one `process` call appends to the world: derived-table rows and
histogram fills. -/
structure Output where
  collisionRows : List CollisionRow
  partRows : List PartRow
  histFills : List Fill
deriving DecidableEq

/-- The fill list of the `track.sign() > 0` histogram block
(CFFilterQA.cxx lines 1054-1071). -/
def posSignFills (msqrt : QFun) (cfg : Config) (t : Track) (selP : Bool)
    (pP : ℚ × ℚ) : List Fill :=
  [("TrackCuts/TPCSignal/fTPCSignal", [t.tpcInnerParam, t.tpcSignal]),
   ("TrackCuts/TPCSignal/fTPCSignalP", [t.p, t.tpcSignal])] ++
  (if selP = true then
    [("TrackCuts/TPCSignal/fTPCSignalALLCUTS", [t.tpcInnerParam, t.tpcSignal]),
     ("TrackCuts/TPCSignal/fTPCSignalALLCUTSP", [t.p, t.tpcSignal]),
     ("TrackCuts/TracksBefore/fMomCorrelationAfterCuts", [t.p, t.tpcInnerParam])]
  else []) ++
  [("TrackCuts/NSigmaBefore/fNsigmaTPCvsPProtonBefore", [t.tpcInnerParam, pP.1]),
   ("TrackCuts/NSigmaBefore/fNsigmaTOFvsPProtonBefore", [t.tpcInnerParam, t.tofNSigmaPr]),
   ("TrackCuts/NSigmaBefore/fNsigmaTPCTOFvsPProtonBefore",
    [t.tpcInnerParam, msqrt ((pP.1 - cfg.avgProton.tpcAvg) ^ 2 +
      (t.tofNSigmaPr - cfg.avgProton.tofAvg) ^ 2)])]

/-- The fill list of the `track.sign() < 0` histogram block
(CFFilterQA.cxx lines 1072-1088).  Line 1083 takes the averages from the
"Proton" row (not "AntiProton"), as in the source. -/
def negSignFills (msqrt : QFun) (cfg : Config) (t : Track) (selP : Bool)
    (pN : ℚ × ℚ) : List Fill :=
  [("TrackCuts/TPCSignal/fTPCSignalAnti", [t.tpcInnerParam, t.tpcSignal]),
   ("TrackCuts/TPCSignal/fTPCSignalAntiP", [t.p, t.tpcSignal])] ++
  (if selP = true then
    [("TrackCuts/TPCSignal/fTPCSignalAntiALLCUTS", [t.tpcInnerParam, t.tpcSignal]),
     ("TrackCuts/TPCSignal/fTPCSignalAntiALLCUTSP", [t.p, t.tpcSignal])]
  else []) ++
  [("TrackCuts/NSigmaBefore/fNsigmaTPCvsPAntiProtonBefore", [t.tpcInnerParam, pN.1]),
   ("TrackCuts/NSigmaBefore/fNsigmaTOFvsPAntiProtonBefore", [t.tpcInnerParam, t.tofNSigmaPr]),
   ("TrackCuts/NSigmaBefore/fNsigmaTPCTOFvsPAntiProtonBefore",
    [t.tpcInnerParam, msqrt ((pN.1 - cfg.avgProton.tpcAvg) ^ 2 +
      (t.tofNSigmaPr - cfg.avgProton.tofAvg) ^ 2)])]

/-- The fill list after a positive track passes the proton PID selection
(CFFilterQA.cxx lines 1105-1120). -/
def protonFills (msqrt : QFun) (cfg : Config) (t : Track) (pP : ℚ × ℚ) : List Fill :=
  [("TrackCuts/TPCSignal/fTPCSignalProton", [t.tpcInnerParam, t.tpcSignal]),
   ("TrackCuts/Proton/fPProton", [t.p]),
   ("TrackCuts/Proton/fPTPCProton", [t.tpcInnerParam]),
   ("TrackCuts/Proton/fPtProton", [t.pt]),
   ("TrackCuts/Proton/fEtaProton", [t.eta]),
   ("TrackCuts/Proton/fPhiProton", [t.phi]),
   ("TrackCuts/Proton/fNsigmaTPCvsPProton", [t.tpcInnerParam, pP.1]),
   ("TrackCuts/Proton/fNsigmaTOFvsPProton", [t.tpcInnerParam, t.tofNSigmaPr]),
   ("TrackCuts/Proton/fNsigmaTPCTOFvsPProton",
    [t.tpcInnerParam, msqrt ((pP.1 - cfg.avgProton.tpcAvg) ^ 2 +
      (t.tofNSigmaPr - cfg.avgProton.tofAvg) ^ 2)]),
   ("TrackCuts/Proton/fDCAxyProton", [t.dcaXY]),
   ("TrackCuts/Proton/fDCAzProton", [t.dcaZ]),
   ("TrackCuts/Proton/fTPCsClsProton", [t.tpcNClsShared]),
   ("TrackCuts/Proton/fTPCcRowsProton", [t.tpcNClsCrossedRows]),
   ("TrackCuts/Proton/fTrkTPCfClsProton", [t.tpcCrossedRowsOverFindableCls]),
   ("TrackCuts/Proton/fTPCnclsProton", [t.tpcNClsFound])]

/-- The fill list after a negative track passes the proton PID selection
(CFFilterQA.cxx lines 1135-1148). -/
def antiProtonFills (msqrt : QFun) (cfg : Config) (t : Track) (pN : ℚ × ℚ) : List Fill :=
  [("TrackCuts/TPCSignal/fTPCSignalAntiProton", [t.tpcInnerParam, t.tpcSignal]),
   ("TrackCuts/AntiProton/fPtAntiProton", [t.pt]),
   ("TrackCuts/AntiProton/fEtaAntiProton", [t.eta]),
   ("TrackCuts/AntiProton/fPhiAntiProton", [t.phi]),
   ("TrackCuts/AntiProton/fNsigmaTPCvsPAntiProton", [t.tpcInnerParam, pN.1]),
   ("TrackCuts/AntiProton/fNsigmaTOFvsPAntiProton", [t.tpcInnerParam, t.tofNSigmaPr]),
   ("TrackCuts/AntiProton/fNsigmaTPCTOFvsPAntiProton",
    [t.tpcInnerParam, msqrt ((pN.1 - cfg.avgAntiProton.tpcAvg) ^ 2 +
      (t.tofNSigmaPr - cfg.avgAntiProton.tofAvg) ^ 2)]),
   ("TrackCuts/AntiProton/fDCAxyAntiProton", [t.dcaXY]),
   ("TrackCuts/AntiProton/fDCAzAntiProton", [t.dcaZ]),
   ("TrackCuts/AntiProton/fTPCsClsAntiProton", [t.tpcNClsShared]),
   ("TrackCuts/AntiProton/fTPCcRowsAntiProton", [t.tpcNClsCrossedRows]),
   ("TrackCuts/AntiProton/fTrkTPCfClsAntiProton", [t.tpcCrossedRowsOverFindableCls]),
   ("TrackCuts/AntiProton/fTPCnclsAntiProton", [t.tpcNClsFound])]

/-- One iteration of the track loop of `process` (CFFilterQA.cxx lines
1030-1151), accumulating histogram fills and `FemtoDreamParticles` rows.
`isSelectedTrack(track, kProton)` is pure and called three times in the
source (lines 1058, 1076, 1091) with the same result; it is bound once.
The two sign-guarded PID calls (lines 1092, 1122) are mutually exclusive. -/
def trackStep (bm : BBFun) (msqrt : QFun) (cfg : Config) (st : ProcState)
    (acc : List Fill × List PartRow) (t : Track) :
    Option (List Fill × List PartRow) :=
  match computeNSigma bm cfg st t with
  | none => none
  | some (pP, pN) =>
    match isSelectedTrack cfg t ParticleSpecies.kProton with
    | none => none
    | some selP =>
      let beforeFills : List Fill :=
        [("TrackCuts/TracksBefore/fPtTrackBefore", [t.pt]),
         ("TrackCuts/TracksBefore/fEtaTrackBefore", [t.eta]),
         ("TrackCuts/TracksBefore/fPhiTrackBefore", [t.phi])] ++
        (if 0 < t.sign then posSignFills msqrt cfg t selP pP else []) ++
        (if t.sign < 0 then negSignFills msqrt cfg t selP pN else [])
      let protonBlock : Option (List Fill × List PartRow) :=
        if selP = true then
          if 0 < t.sign then
            match isSelectedTrackPID bm msqrt cfg st t ParticleSpecies.kProton false pP 1 with
            | none => none
            | some pid =>
              if pid = true then
                some (protonFills msqrt cfg t pP,
                  [{ pt := t.pt, eta := t.eta, phi := t.phi,
                     cutBit := cfg.ConfCutBitPart, pidBit := cfg.ConfPidBitProton,
                     dcaXY := t.dcaXY }])
              else some ([], [])
          else if t.sign < 0 then
            match isSelectedTrackPID bm msqrt cfg st t ParticleSpecies.kProton false pN (-1) with
            | none => none
            | some pid =>
              if pid = true then
                some (antiProtonFills msqrt cfg t pN,
                  [{ pt := t.pt, eta := t.eta, phi := t.phi,
                     cutBit := cfg.ConfCutBitAntiPart, pidBit := cfg.ConfPidBitProton,
                     dcaXY := t.dcaXY }])
              else some ([], [])
          else some ([], [])
        else some ([], [])
      match protonBlock with
      | none => none
      | some (pFills, pRows) =>
        some (acc.1 ++ beforeFills ++ pFills, acc.2 ++ pRows)

/-- `CFFilterQA::process` (CFFilterQA.cxx lines 983-1153).  `LOG(fatal)` for
run-2 mode (lines 986-988) aborts with no effect, embedded as `none`.  The
`fullV0s` argument is consumed by no live statement and is omitted.  The state
is mutated only by the run-change block; the track loop reads it. -/
def process (bm : BBFun) (msqrt : QFun) (fetch : String → Option BBHist)
    (cfg : Config) (st : ProcState) (col : Col) (tracks : List Track) :
    Option (ProcState × Output) :=
  if cfg.ConfIsRun3 = false then none
  else
    let st1 := bbUpdateStep fetch cfg st col.runNumber
    let evFills : List Fill :=
      [("EventCuts/fMultiplicityBefore", [col.multNTracksPV]),
       ("EventCuts/fZvtxBefore", [col.posZ])]
    if isSelectedEvent cfg col = true then
      let colRow : CollisionRow :=
        { posZ := col.posZ, multFV0M := col.multFV0M,
          multNTracksPV := col.multNTracksPV, spher := -2, magField := -2 }
      let selFills : List Fill :=
        [("EventCuts/fMultiplicityAfter", [col.multNTracksPV]),
         ("EventCuts/fZvtxAfter", [col.posZ])]
      match tracks.foldlM (trackStep bm msqrt cfg st1) ([], []) with
      | none => none
      | some (tFills, tRows) =>
        some (st1, { collisionRows := [colRow], partRows := tRows,
                     histFills := evFills ++ selFills ++ tFills })
    else
      some (st1, { collisionRows := [], partRows := [], histFills := evFills })

/-- The conjunction of cuts asserted by the specification for
`isSelectedTrack`, verbatim from the claim, with `nClusMin` the species entry
of `ConfTPCNClustersMin`. -/
def trackCutsSpec (cfg : Config) (t : Track) (s : ParticleSpecies) (nClusMin : ℚ) : Prop :=
  (cfg.ConfPtCuts s).ptMin ≤ t.pt ∧
  t.pt ≤ (cfg.ConfPtCuts s).ptMax ∧
  |t.eta| ≤ cfg.ConfTrkEta ∧
  nClusMin ≤ t.tpcNClsFound ∧
  cfg.ConfTrkTPCfCls ≤ t.tpcCrossedRowsOverFindableCls ∧
  cfg.ConfTrkTPCcRowsMin ≤ t.tpcNClsCrossedRows ∧
  t.tpcNClsShared ≤ cfg.ConfTrkTPCsClsMax ∧
  cfg.ConfTrkITSnclsMin ≤ t.itsNCls ∧
  cfg.ConfTrkITSnclsIbMin ≤ t.itsNClsInnerBarrel ∧
  |t.dcaXY| ≤ cfg.ConfTrkDCAxyMax ∧
  |t.dcaZ| ≤ cfg.ConfTrkDCAzMax ∧
  (cfg.ConfRejectNotPropagatedTracks = true → |t.dcaXY| ≤ 1000) ∧
  (cfg.ConfTrkRequireChi2MaxTPC = true → t.tpcChi2NCl < cfg.ConfTrkMaxChi2PerClusterTPC) ∧
  (cfg.ConfTrkRequireChi2MaxITS = true → t.itsChi2NCl < cfg.ConfTrkMaxChi2PerClusterITS) ∧
  (cfg.ConfTrkTPCRefit = true → t.hasTPC = true) ∧
  (cfg.ConfTrkITSRefit = true → t.hasITS = true)

/-- The acceptance condition asserted by the specification for
`isSelectedTrackPID` with `Rejection` disabled, verbatim from the claim:
momentum threshold against `tpcInnerParam` (or the momentum at the primary
vertex for deuterons under `ConfDeuteronThPVMom`), strict TPC band below the
threshold, strict combined TPC-TOF bound above it, rows chosen by the
charge sign. -/
def pidSelectionSpec (msqrt : QFun) (cfg : Config) (t : Track)
    (s : ParticleSpecies) (nSig : ℚ × ℚ) (charge : ℤ) : Prop :=
  match s with
  | ParticleSpecies.kProton =>
    let row := if 0 < charge then cfg.pidCutsProton else cfg.pidCutsAntiProton
    let avg := if 0 < charge then cfg.avgProton else cfg.avgAntiProton
    if t.tpcInnerParam ≤ (cfg.ConfPtCuts ParticleSpecies.kProton).pThres then
      row.tpcMin < nSig.1 ∧ nSig.1 < row.tpcMax
    else
      msqrt ((nSig.1 - avg.tpcAvg) ^ 2 + (t.tofNSigmaPr - avg.tofAvg) ^ 2) < row.tpctofMax
  | ParticleSpecies.kDeuteron =>
    let thMom := if cfg.ConfDeuteronThPVMom = true then t.p else t.tpcInnerParam
    let row := if 0 < charge then cfg.pidCutsDeuteron else cfg.pidCutsAntiDeuteron
    let avg := if 0 < charge then cfg.avgDeuteron else cfg.avgAntiDeuteron
    if thMom ≤ (cfg.ConfPtCuts ParticleSpecies.kDeuteron).pThres then
      row.tpcMin < nSig.2 ∧ nSig.2 < row.tpcMax
    else
      msqrt ((nSig.2 - avg.tpcAvg) ^ 2 + (t.tofNSigmaDe - avg.tofAvg) ^ 2) < row.tpctofMax
  | ParticleSpecies.kLambda => False

/-- The default configuration of the task (the initialisers of the
`Configurable` members, CFFilterQA.cxx lines 142-404), used as concrete input
for witnesses and counterexamples. -/
def cfgEx : Config where
  ConfIsRun3 := true
  ConfEvtSelectZvtx := true
  ConfEvtZvtx := 10
  ConfEvtOfflineCheck := false
  ConfCutBitPart := 8190
  ConfCutBitAntiPart := 8189
  ConfPidBitProton := 1
  ConfDeuteronThPVMom := false
  ConfUseManualPIDproton := false
  ConfPIDBBProton := "Users/l/lserksny/PIDProton"
  ConfPIDBBAntiProton := "Users/l/lserksny/PIDAntiProton"
  ConfUseManualPIDdeuteron := false
  ConfPIDBBDeuteron := "Users/l/lserksny/PIDDeuteron"
  ConfPIDBBAntiDeuteron := "Users/l/lserksny/PIDAntiDeuteron"
  ConfUseManualPIDpion := false
  ConfPIDBBPion := "Users/l/lserksny/PIDPion"
  ConfPIDBBAntiPion := "Users/l/lserksny/PIDAntiPion"
  ConfUseManualPIDel := false
  ConfPIDBBElectron := "Users/l/lserksny/PIDElectron"
  ConfPIDBBAntiElectron := "Users/l/lserksny/PIDAntiElectron"
  ConfUseManualPIDdaughterPion := false
  ConfUseManualPIDdaughterProton := false
  ConfRejectNotPropagatedTracks := false
  ConfTrkEta := 85 / 100
  nClusMinProton := 60
  nClusMinDeuteron := 60
  ConfTrkTPCfCls := 83 / 100
  ConfTrkTPCcRowsMin := 70
  ConfTrkTPCsClsMax := 160
  ConfTrkITSnclsMin := 0
  ConfTrkITSnclsIbMin := 0
  ConfTrkDCAxyMax := 15 / 100
  ConfTrkDCAzMax := 3 / 10
  ConfTrkRequireChi2MaxTPC := false
  ConfTrkRequireChi2MaxITS := false
  ConfTrkMaxChi2PerClusterTPC := 4
  ConfTrkMaxChi2PerClusterITS := 36
  ConfTrkTPCRefit := false
  ConfTrkITSRefit := false
  pidCutsProton := { tpcMin := -6, tpcMax := 6, tofMin := -6, tofMax := 6, tpctofMax := 6 }
  pidCutsDeuteron := { tpcMin := -6, tpcMax := 6, tofMin := -99, tofMax := 99, tpctofMax := 99 }
  pidCutsAntiProton := { tpcMin := -6, tpcMax := 6, tofMin := -6, tofMax := 6, tpctofMax := 6 }
  pidCutsAntiDeuteron := { tpcMin := -6, tpcMax := 6, tofMin := -99, tofMax := 99, tpctofMax := 99 }
  ConfPtCuts := fun s =>
    match s with
    | ParticleSpecies.kProton => { ptMin := 35 / 100, ptMax := 6, pThres := 75 / 100 }
    | ParticleSpecies.kDeuteron => { ptMin := 35 / 100, ptMax := 16 / 10, pThres := 99 }
    | ParticleSpecies.kLambda => { ptMin := 35 / 100, ptMax := 6, pThres := 99 }
  ConfRejectNOTDeuteron := false
  rejProton := { tpcMin := -2, tpcMax := 2 }
  rejPion := { tpcMin := -2, tpcMax := 2 }
  rejElectron := { tpcMin := -2, tpcMax := 2 }
  avgProton := { tpcAvg := 0, tofAvg := 0 }
  avgAntiProton := { tpcAvg := 0, tofAvg := 0 }
  avgDeuteron := { tpcAvg := 0, tofAvg := 0 }
  avgAntiDeuteron := { tpcAvg := 0, tofAvg := 0 }
  ConfDaughEta := 85 / 100
  ConfDaughTPCnclsMin := 60
  ConfDaughDCAMin := 4 / 100
  daughPIDPion := { tpcMin := -6, tpcMax := 6 }
  daughPIDProton := { tpcMin := -6, tpcMax := 6 }

/-- A concrete positive track that passes every default track cut. -/
def trackEx : Track where
  pt := 1
  eta := 0
  phi := 0
  p := 1
  sign := 1
  tpcInnerParam := 1 / 2
  tpcSignal := 1
  tpcNClsFound := 100
  tpcCrossedRowsOverFindableCls := 1
  tpcNClsCrossedRows := 100
  tpcNClsShared := 0
  itsNCls := 5
  itsNClsInnerBarrel := 2
  dcaXY := 0
  dcaZ := 0
  tpcChi2NCl := 1
  itsChi2NCl := 1
  hasTPC := true
  hasITS := true
  tpcNSigmaPr := 0
  tpcNSigmaDe := 0
  tpcNSigmaPi := 10
  tpcNSigmaEl := 10
  tofNSigmaPr := 0
  tofNSigmaDe := 0

/-- The task state after `init`: empty Bethe-Bloch vectors, the
`o2::constants::physics` masses (values immaterial to the claims) and the
`-999` run-number cache. -/
def stEx : ProcState where
  BBProton := []
  BBAntiproton := []
  BBDeuteron := []
  BBAntideuteron := []
  BBPion := []
  BBAntipion := []
  BBElectron := []
  BBAntielectron := []
  mMassElectron := 511 / 1000000
  mMassPion := 13957 / 100000
  mMassProton := 93827 / 100000
  mMassLambda := 111568 / 100000
  mMassDeuteron := 187561 / 100000
  currentRunNumber := -999
  lastRunNumber := -999

/-- A concrete stand-in for the external `BetheBlochAleph`. -/
def bmEx : BBFun := fun _ _ _ _ _ _ => 1

/-- A concrete stand-in for the external square root. -/
def sqEx : QFun := fun q => q

/-- A second concrete Bethe-Bloch stand-in, used to exhibit independence of
the Bethe-Bloch formula. -/
def bmEx2 : BBFun := fun _ _ _ _ _ _ => 2

/-- A collision at the origin that passes the default event selection. -/
def colEx : Col where
  posZ := 0
  sel8 := true
  multFV0M := 0
  multNTracksPV := 0
  runNumber := 1

/-- A collision far out of the z-vertex window (rejected by the default
event selection), in a new run. -/
def colEx5 : Col where
  posZ := 100
  sel8 := true
  multFV0M := 0
  multNTracksPV := 0
  runNumber := 5

end CFFilterQA

namespace FT0Task

/-- A histogram fill event of the ft0Task: histogram name and arguments. -/
abbrev Fill : Type := String × List ℚ

/-- One row of the FT0 table joined with its bunch crossing, i.e. the fields
`ft0Task::process` reads (ft0Task.cxx lines 72-84).  The per-side channel and
amplitude columns are paired componentwise, exactly as the source iterates
them (`channelA()[idx]` with `amplitudeA()[idx]`). -/
structure FT0Rec where
  channelA : List (ℕ × ℚ)
  channelC : List (ℕ × ℚ)
  triggerMask : ℕ
  timeA : ℚ
  timeC : ℚ
  globalBC : ℕ
deriving DecidableEq

/-- `o2::ft0::Triggers::bitVertex`, an external DataFormatsFT0 constant; its
exact value is immaterial to the claims, which only use the derived
vertex-trigger predicate. -/
def bitVertex : ℕ := 2

/-- `sNS2Cm` (ft0Task.cxx line 29). -/
def sNS2Cm : ℚ := 2997 / 100

/-- The A-side amplitude sum accumulated by the first channel loop
(ft0Task.cxx lines 85-93). -/
def sumAmpA (r : FT0Rec) : ℚ := (r.channelA.map Prod.snd).sum

/-- The C-side amplitude sum accumulated by the second channel loop
(ft0Task.cxx lines 94-102). -/
def sumAmpC (r : FT0Rec) : ℚ := (r.channelC.map Prod.snd).sum

/-- The vertex-trigger predicate `TESTBIT(trg, bitVertex)` (line 80). -/
def isVrtTrg (r : FT0Rec) : Bool := r.triggerMask.testBit bitVertex

/-- The zero-amplitude sentinel substitution applied to `sumAmpA` and
`sumAmpC` after `sumAmp` has been computed (ft0Task.cxx lines 104-109). -/
def substAmp (x : ℚ) : ℚ := if x = 0 then -10000000000 else x

/-- The per-channel fills of the A-side loop (ft0Task.cxx lines 85-93):
`hAmpPerChannelID` always, `hAmpPerChannelID_VrtTrg` when vertex-triggered;
channel IDs are used unchanged. -/
def ampFillsA (r : FT0Rec) : List Fill :=
  r.channelA.flatMap fun ca =>
    ("hAmpPerChannelID", [(ca.1 : ℚ), ca.2]) ::
      (if isVrtTrg r = true then [("hAmpPerChannelID_VrtTrg", [(ca.1 : ℚ), ca.2])] else [])

/-- The per-channel fills of the C-side loop (ft0Task.cxx lines 94-102):
channel IDs are shifted by `+96`. -/
def ampFillsC (r : FT0Rec) : List Fill :=
  r.channelC.flatMap fun cc =>
    ("hAmpPerChannelID", [((cc.1 + 96 : ℕ) : ℚ), cc.2]) ::
      (if isVrtTrg r = true then [("hAmpPerChannelID_VrtTrg", [((cc.1 + 96 : ℕ) : ℚ), cc.2])] else [])

/-- `bcid` (ft0Task.cxx line 75). -/
def bcid (r : FT0Rec) : ℕ := r.globalBC % 3564

/-- `isTimeOk` (ft0Task.cxx line 81). -/
def isTimeOk (r : FT0Rec) : Bool := decide (r.timeA < 125 / 10 ∧ r.timeC < 125 / 10)

/-- `collTime` (ft0Task.cxx line 82). -/
def collTime (r : FT0Rec) : ℚ := (r.timeA + r.timeC) / 2

/-- `vrtPos` (ft0Task.cxx line 83). -/
def vrtPos (r : FT0Rec) : ℚ := (r.timeC - r.timeA) / 2 * sNS2Cm

/-- The four sum-amplitude fills (ft0Task.cxx lines 110-113): `hSumAmpAvsC`,
`hSumAmpA` and `hSumAmpC` receive the substituted sums, while `hSumAmp`
receives `sumAmp`, which was computed at line 103 before the substitution. -/
def sumFills (r : FT0Rec) : List Fill :=
  [("hSumAmpAvsC", [substAmp (sumAmpA r), substAmp (sumAmpC r)]),
   ("hSumAmpA", [substAmp (sumAmpA r)]),
   ("hSumAmpC", [substAmp (sumAmpC r)]),
   ("hSumAmp", [sumAmpA r + sumAmpC r])]

/-- The time-gated vertex/collision-time fill (ft0Task.cxx lines 114-116). -/
def timeFills (r : FT0Rec) : List Fill :=
  if isTimeOk r = true then [("hVrtVsCollTime", [vrtPos r, collTime r])] else []

/-- The vertex-triggered block (ft0Task.cxx lines 117-123); its sum fill at
line 121 recomputes `sumAmpA + sumAmpC` from the substituted values. -/
def vrtFills (r : FT0Rec) : List Fill :=
  if isVrtTrg r = true then
    [("hSumAmpAvsC_vrtTrg", [substAmp (sumAmpA r), substAmp (sumAmpC r)]),
     ("hSumAmpA_vrtTrg", [substAmp (sumAmpA r)]),
     ("hSumAmpC_vrtTrg", [substAmp (sumAmpC r)]),
     ("hSumAmp_vrtTrg", [substAmp (sumAmpA r) + substAmp (sumAmpC r)])] ++
    (if isTimeOk r = true then [("hVrtVsCollTime_vrtTrg", [vrtPos r, collTime r])] else [])
  else []

/-- The trigger-bit statistics loop (ft0Task.cxx lines 124-129). -/
def trgFills (r : FT0Rec) : List Fill :=
  (List.range 8).flatMap fun iTrg =>
    if r.triggerMask.testBit iTrg = true then
      [("hTriggers", [(iTrg : ℚ)]), ("hTriggersPerBC", [(bcid r : ℚ), (iTrg : ℚ)])]
    else []

/-- The loop body of `ft0Task::process` for one FT0 record (ft0Task.cxx lines
72-129), as the ordered list of histogram fills it performs: the two
per-channel loops, the sum fills (with the zero-amplitude sentinel
substitution of lines 104-109 applied to every use of `sumAmpA` / `sumAmpC`
after line 103), the time-gated fill, the vertex-triggered block, and the
trigger statistics. -/
def ft0Step (r : FT0Rec) : List Fill :=
  ampFillsA r ++ ampFillsC r ++ sumFills r ++ timeFills r ++ vrtFills r ++ trgFills r

/-- The arguments of every fill a step performs on the histogram `name`. -/
def fillsOf (fills : List Fill) (name : String) : List (List ℚ) :=
  (fills.filter fun f => f.1 = name).map fun f => f.2

/-- A concrete vertex-triggered FT0 record with an empty A-side. -/
def rEx9 : FT0Rec where
  channelA := []
  channelC := [(5, 10)]
  triggerMask := 4
  timeA := 0
  timeC := 0
  globalBC := 0

/-- A concrete vertex-triggered FT0 record with channels on both sides. -/
def rEx10 : FT0Rec where
  channelA := [(3, 7)]
  channelC := [(5, 10)]
  triggerMask := 4
  timeA := 0
  timeC := 0
  globalBC := 0

end FT0Task

namespace CFFilterQA

open CFTrigger

/-- Unfolding step for the cut cascades: an early `return false` arm never
yields `some true`. -/
theorem ite_some_false_eq_some_true (c : Prop) [Decidable c] (rest : Option Bool) :
    ((if c then some false else rest) = some true) ↔ (¬ c ∧ rest = some true) := by
  by_cases h : c <;> simp [h]


/-- C1 (amended): for the species that have a `ConfTPCNClustersMin` entry,
i.e. Proton and Deuteron, `isSelectedTrack` returns true exactly when all the
cuts listed by the specification hold.  (For Lambda the lookup indexes the
1-by-2 cluster table out of range; see `c1_counterexample`.) -/
theorem c1_isSelectedTrack_iff_cuts (cfg : Config) (t : Track) (s : ParticleSpecies)
    (m : ℚ) (h : cfg.getNClusMin s = some m) :
    isSelectedTrack cfg t s = some true ↔ trackCutsSpec cfg t s m := by
  unfold isSelectedTrack trackCutsSpec
  rw [h]
  simp only [ite_some_false_eq_some_true, not_lt, not_le]
  push_neg
  simp only [Bool.not_eq_false, and_true]









/-- C2: with `Rejection` disabled and species Proton or Deuteron,
`isSelectedTrackPID` accepts exactly under the specification's condition. -/
theorem c2_isSelectedTrackPID_iff_spec (bm : BBFun) (msqrt : QFun) (cfg : Config)
    (st : ProcState) (t : Track) (s : ParticleSpecies) (nSig : ℚ × ℚ) (charge : ℤ)
    (hs : s = ParticleSpecies.kProton ∨ s = ParticleSpecies.kDeuteron) :
    isSelectedTrackPID bm msqrt cfg st t s false nSig charge = some true ↔
      pidSelectionSpec msqrt cfg t s nSig charge := by
  rcases hs with h | h <;> subst h <;>
    simp only [isSelectedTrackPID, pidSelectionSpec, Config.getPIDCuts,
      Config.getPIDCutsAnti, reduceCtorEq, false_and, and_false, if_false,
      Bool.false_eq_true, if_neg, ite_false, decide_eq_true_eq]
  case _ =>
    by_cases hth : t.tpcInnerParam ≤ (cfg.ConfPtCuts ParticleSpecies.kProton).pThres <;>
      by_cases hch : 0 < charge <;>
      simp [hth, hch]
  case _ =>
    by_cases hd : cfg.ConfDeuteronThPVMom = true
    case pos =>
      by_cases hth : t.p ≤ (cfg.ConfPtCuts ParticleSpecies.kDeuteron).pThres <;>
        by_cases hch : 0 < charge <;>
        simp [hd, hth, hch]
    case neg =>
      by_cases hth : t.tpcInnerParam ≤ (cfg.ConfPtCuts ParticleSpecies.kDeuteron).pThres <;>
        by_cases hch : 0 < charge <;>
        simp [hd, hth, hch]


/-- A six-entry Bethe-Bloch vector makes every `BB[0]`..`BB[5]` access of
`updatePID` in bounds. -/
theorem updatePID_isSome (bm : BBFun) (t : Track) (bg : ℚ) (BB : List ℚ)
    (h : BB.length = 6) : (updatePID bm t bg BB).isSome = true := by
  rcases BB with _ | ⟨b0, _ | ⟨b1, _ | ⟨b2, _ | ⟨b3, _ | ⟨b4, _ | ⟨b5, rest⟩⟩⟩⟩⟩⟩ <;>
    simp_all [updatePID]

/-- The pattern of the guarded slot updates in the track loop: the update is
attempted only behind a six-entry check, so the result is always defined. -/
theorem guardedUpdate_isSome (bm : BBFun) (t : Track) (bg : ℚ) (BB : List ℚ)
    (c : Prop) [Decidable c] (f : ℚ → ℚ × ℚ) (x : ℚ × ℚ) :
    ((if c ∧ BB.length = 6 then (updatePID bm t bg BB).map f else some x).isSome) = true := by
  split
  case isTrue h => simp [Option.isSome_map, updatePID_isSome bm t bg BB h.2]
  case isFalse => rfl

/-- The pattern of the guarded overrides in the `Rejection` branch: both
overriding assignments sit behind six-entry checks. -/
theorem overrideChain_isSome (bm : BBFun) (t : Track) (bg : ℚ) (BB1 BB2 : List ℚ)
    (q1 q2 : Prop) [Decidable q1] [Decidable q2] (x : ℚ) :
    ((if BB2.length = 6 ∧ q2 then updatePID bm t bg BB2
      else if BB1.length = 6 ∧ q1 then updatePID bm t bg BB1
      else some x).isSome) = true := by
  split
  case isTrue h => exact updatePID_isSome bm t bg BB2 h.1
  case isFalse =>
    split
    case isTrue h => exact updatePID_isSome bm t bg BB1 h.1
    case isFalse => rfl

/-- The per-track nSigma recomputation is always defined: each of its four
`updatePID` calls is guarded by a six-entry check. -/
theorem computeNSigma_isSome (bm : BBFun) (cfg : Config) (st : ProcState) (t : Track) :
    (computeNSigma bm cfg st t).isSome = true := by
  unfold computeNSigma
  dsimp only
  obtain ⟨p1, hp1⟩ := Option.isSome_iff_exists.mp
    (guardedUpdate_isSome bm t (1 / st.mMassProton) st.BBProton
      (cfg.ConfUseManualPIDproton = true) (fun v => (v, t.tpcNSigmaDe))
      (t.tpcNSigmaPr, t.tpcNSigmaDe))
  obtain ⟨n1, hn1⟩ := Option.isSome_iff_exists.mp
    (guardedUpdate_isSome bm t (1 / st.mMassProton) st.BBAntiproton
      (cfg.ConfUseManualPIDproton = true) (fun v => (v, t.tpcNSigmaDe))
      (t.tpcNSigmaPr, t.tpcNSigmaDe))
  rw [hp1, hn1]
  obtain ⟨p2, hp2⟩ := Option.isSome_iff_exists.mp
    (guardedUpdate_isSome bm t (1 / st.mMassDeuteron) st.BBDeuteron
      (cfg.ConfUseManualPIDdeuteron = true) (fun v => (p1.1, v)) p1)
  obtain ⟨n2, hn2⟩ := Option.isSome_iff_exists.mp
    (guardedUpdate_isSome bm t (1 / st.mMassDeuteron) st.BBAntideuteron
      (cfg.ConfUseManualPIDdeuteron = true) (fun v => (n1.1, v)) n1)
  dsimp only
  rw [hp2, hn2]
  rfl

/-- Chain step for the early-return cut cascade: if the remainder is defined,
so is the whole. -/
theorem isSome_ite_some_false (c : Prop) [Decidable c] (rest : Option Bool)
    (h : rest.isSome = true) : (if c then some false else rest).isSome = true := by
  split
  · rfl
  · exact h

/-- `isSelectedTrack` at species Proton never hits the out-of-range table
column. -/
theorem isSelectedTrack_kProton_isSome (cfg : Config) (t : Track) :
    (isSelectedTrack cfg t ParticleSpecies.kProton).isSome = true := by
  unfold isSelectedTrack
  rw [show cfg.getNClusMin ParticleSpecies.kProton = some cfg.nClusMinProton from rfl]
  repeat (first | apply isSome_ite_some_false | exact rfl)

/-- The manual pion override is always defined: both `updatePID` calls sit
behind six-entry guards. -/
theorem manualPiSigma_isSome (bm : BBFun) (cfg : Config) (st : ProcState)
    (t : Track) (charge : ℤ) : (manualPiSigma bm cfg st t charge).isSome = true := by
  unfold manualPiSigma
  dsimp only
  split
  · exact overrideChain_isSome bm t (1 / st.mMassPion) st.BBPion st.BBAntipion
      (0 < charge) (charge < 0) t.tpcNSigmaPi
  · rfl

/-- The manual electron override is always defined: both `updatePID` calls
sit behind six-entry guards. -/
theorem manualElSigma_isSome (bm : BBFun) (cfg : Config) (st : ProcState)
    (t : Track) (charge : ℤ) : (manualElSigma bm cfg st t charge).isSome = true := by
  unfold manualElSigma
  dsimp only
  split
  · exact overrideChain_isSome bm t (1 / st.mMassElectron) st.BBElectron st.BBAntielectron
      (charge < 0) (0 < charge) t.tpcNSigmaEl
  · rfl

/-- The rejection verdict is defined whenever both nSigma inputs are. -/
theorem rejDecision_isSome (cfg : Config) (nSig : ℚ × ℚ) (piOpt elOpt : Option ℚ)
    (isSel : Bool) (hpi : piOpt.isSome = true) (hel : elOpt.isSome = true) :
    (rejDecision cfg nSig piOpt elOpt isSel).isSome = true := by
  obtain ⟨a, ha⟩ := Option.isSome_iff_exists.mp hpi
  obtain ⟨b, hb⟩ := Option.isSome_iff_exists.mp hel
  subst ha
  subst hb
  unfold rejDecision
  split <;> first
    | rfl
    | (split <;> rfl)

/-- `isSelectedTrackPID` at species Proton or Deuteron is always defined:
the fatal arm is not taken and every `updatePID` call in the `Rejection`
branch sits behind a six-entry guard. -/
theorem isSelectedTrackPID_isSome (bm : BBFun) (msqrt : QFun) (cfg : Config)
    (st : ProcState) (t : Track) (s : ParticleSpecies) (r : Bool)
    (nSig : ℚ × ℚ) (charge : ℤ)
    (hs : s = ParticleSpecies.kProton ∨ s = ParticleSpecies.kDeuteron) :
    (isSelectedTrackPID bm msqrt cfg st t s r nSig charge).isSome = true := by
  rcases hs with h | h <;> subst h
  · unfold isSelectedTrackPID
    dsimp only [Config.getPIDCuts, Config.getPIDCutsAnti]
    split
    next heq => exact absurd heq (by split_ifs <;> simp)
    next ns heq =>
      split
      next heq2 => exact absurd heq2 (by split_ifs <;> simp)
      next row heq2 =>
        split
        · exact rejDecision_isSome cfg nSig _ _ _
            (manualPiSigma_isSome bm cfg st t charge)
            (manualElSigma_isSome bm cfg st t charge)
        · rfl
  · unfold isSelectedTrackPID
    dsimp only [Config.getPIDCuts, Config.getPIDCutsAnti]
    split
    next heq => exact absurd heq (by split_ifs <;> simp)
    next ns heq =>
      split
      next heq2 => exact absurd heq2 (by split_ifs <;> simp)
      next row heq2 =>
        split
        · exact rejDecision_isSome cfg nSig _ _ _
            (manualPiSigma_isSome bm cfg st t charge)
            (manualElSigma_isSome bm cfg st t charge)
        · rfl

/-- With both pion Bethe-Bloch vectors empty, the manual pion override
degenerates to the nominal detector value, independently of the
Bethe-Bloch formula. -/
theorem manualPiSigma_empty (bm : BBFun) (cfg : Config) (st : ProcState)
    (t : Track) (charge : ℤ) (h1 : st.BBPion = []) (h2 : st.BBAntipion = []) :
    manualPiSigma bm cfg st t charge = some t.tpcNSigmaPi := by
  simp [manualPiSigma, h1, h2]

/-- With both electron Bethe-Bloch vectors empty, the manual electron
override degenerates to the nominal detector value. -/
theorem manualElSigma_empty (bm : BBFun) (cfg : Config) (st : ProcState)
    (t : Track) (charge : ℤ) (h1 : st.BBElectron = []) (h2 : st.BBAntielectron = []) :
    manualElSigma bm cfg st t charge = some t.tpcNSigmaEl := by
  simp [manualElSigma, h1, h2]

/-- C8: every `updatePID` call site is dominated by a six-entry guard on the
vector it passes, so in the total embedding (indexing via `Option`) the
out-of-bounds branch is unreachable: a six-entry vector makes `updatePID`
itself defined, and both callers (the per-track nSigma recomputation of
`process` and the `Rejection` branch of `isSelectedTrackPID`) are defined on
all inputs. -/
theorem c8_updatePID_guarded (bm : BBFun) (msqrt : QFun) (cfg : Config)
    (st : ProcState) (t : Track) (s : ParticleSpecies) (r : Bool)
    (nSig : ℚ × ℚ) (charge : ℤ) :
    (∀ (bg : ℚ) (BB : List ℚ), BB.length = 6 → (updatePID bm t bg BB).isSome = true) ∧
    (computeNSigma bm cfg st t).isSome = true ∧
    (s = ParticleSpecies.kProton ∨ s = ParticleSpecies.kDeuteron →
      (isSelectedTrackPID bm msqrt cfg st t s r nSig charge).isSome = true) :=
  ⟨fun bg BB h => updatePID_isSome bm t bg BB h,
   computeNSigma_isSome bm cfg st t,
   fun hs => isSelectedTrackPID_isSome bm msqrt cfg st t s r nSig charge hs⟩

/-- C3: a failed CCDB retrieval yields the empty vector, and empty vectors
disable every manual Bethe-Bloch correction: the per-track nSigma
recomputation returns the nominal detector values unchanged, the PID
selection does not depend on the Bethe-Bloch formula at all, and a run-change
refresh against an unavailable CCDB keeps every vector empty. -/
theorem c3_missing_ccdb_nominal_pid (bm1 bm2 : BBFun) (msqrt : QFun)
    (cfg : Config) (st : ProcState) (t : Track) (s : ParticleSpecies) (r : Bool)
    (nSig : ℚ × ℚ) (charge : ℤ)
    (hP : st.BBProton = []) (hAP : st.BBAntiproton = [])
    (hD : st.BBDeuteron = []) (hAD : st.BBAntideuteron = [])
    (hPi : st.BBPion = []) (hAPi : st.BBAntipion = [])
    (hE : st.BBElectron = []) (hAE : st.BBAntielectron = []) :
    setValuesBB none = [] ∧
    computeNSigma bm1 cfg st t =
      some ((t.tpcNSigmaPr, t.tpcNSigmaDe), (t.tpcNSigmaPr, t.tpcNSigmaDe)) ∧
    isSelectedTrackPID bm1 msqrt cfg st t s r nSig charge =
      isSelectedTrackPID bm2 msqrt cfg st t s r nSig charge ∧
    (∀ run : ℤ,
      (bbUpdateStep (fun _ => none) cfg st run).BBProton = [] ∧
      (bbUpdateStep (fun _ => none) cfg st run).BBAntiproton = [] ∧
      (bbUpdateStep (fun _ => none) cfg st run).BBDeuteron = [] ∧
      (bbUpdateStep (fun _ => none) cfg st run).BBAntideuteron = [] ∧
      (bbUpdateStep (fun _ => none) cfg st run).BBPion = [] ∧
      (bbUpdateStep (fun _ => none) cfg st run).BBAntipion = [] ∧
      (bbUpdateStep (fun _ => none) cfg st run).BBElectron = [] ∧
      (bbUpdateStep (fun _ => none) cfg st run).BBAntielectron = []) := by
  refine ⟨rfl, ?_, ?_, ?_⟩
  · simp [computeNSigma, hP, hAP, hD, hAD]
  · simp only [isSelectedTrackPID,
      manualPiSigma_empty bm1 cfg st t charge hPi hAPi,
      manualPiSigma_empty bm2 cfg st t charge hPi hAPi,
      manualElSigma_empty bm1 cfg st t charge hE hAE,
      manualElSigma_empty bm2 cfg st t charge hE hAE]
  · intro run
    unfold bbUpdateStep
    split_ifs <;> simp_all [setValuesBB] <;> (try (split <;> simp_all))

/-- C6 (amended): `isSelectedTrack` and `isSelectedV0Daughter` read no
mutable task state (their embeddings take none), and `isSelectedTrackPID` is
independent of the task state whenever `Rejection` is disabled or both manual
pion and electron PID are disabled; with `Rejection` and a manual flag
enabled it additionally reads the stored Bethe-Bloch vectors (see the
counterexample). -/
theorem c6_pid_state_independent (bm : BBFun) (msqrt : QFun) (cfg : Config)
    (st1 st2 : ProcState) (t : Track) (s : ParticleSpecies) (r : Bool)
    (nSig : ℚ × ℚ) (charge : ℤ)
    (h : r = false ∨ (cfg.ConfUseManualPIDpion = false ∧ cfg.ConfUseManualPIDel = false)) :
    isSelectedTrackPID bm msqrt cfg st1 t s r nSig charge =
      isSelectedTrackPID bm msqrt cfg st2 t s r nSig charge := by
  rcases h with h | ⟨h1, h2⟩
  · subst h
    simp [isSelectedTrackPID]
  · have e1 : manualPiSigma bm cfg st1 t charge = manualPiSigma bm cfg st2 t charge := by
      simp [manualPiSigma, h1]
    have e2 : manualElSigma bm cfg st1 t charge = manualElSigma bm cfg st2 t charge := by
      simp [manualElSigma, h2]
    simp only [isSelectedTrackPID, e1, e2]

/-- `isSelectedEvent` in the claim phrasing: z-vertex window (when enabled)
and sel8 offline check (when enabled). -/
theorem isSelectedEvent_eq_true_iff (cfg : Config) (col : Col) :
    isSelectedEvent cfg col = true ↔
      ((cfg.ConfEvtSelectZvtx = false ∨ |col.posZ| ≤ cfg.ConfEvtZvtx) ∧
       (cfg.ConfEvtOfflineCheck = false ∨ col.sel8 = true)) := by
  unfold isSelectedEvent
  split_ifs with h1 h2
  · simp only [Bool.false_eq_true, false_iff]
    intro hx
    rcases hx.1 with hz | hz
    · rw [hz] at h1
      exact absurd h1.1 (by simp)
    · exact absurd h1.2 (not_lt.mpr hz)
  · simp only [Bool.false_eq_true, false_iff]
    intro hx
    rcases hx.2 with ho | ho
    · rw [ho] at h2
      exact absurd h2.1 (by simp)
    · rw [ho] at h2
      exact absurd h2.2 (by simp)
  · simp only [true_iff]
    push_neg at h1 h2
    refine ⟨?_, ?_⟩
    · by_cases hz : cfg.ConfEvtSelectZvtx = true
      · exact Or.inr (h1 hz)
      · exact Or.inl (by simpa using hz)
    · by_cases ho : cfg.ConfEvtOfflineCheck = true
      · exact Or.inr (by simpa using h2 ho)
      · exact Or.inl (by simpa using ho)

/-- Every track-loop iteration is defined: the nSigma recomputation, the
proton track cut and the two charge-guarded PID calls all are. -/
theorem trackStep_isSome (bm : BBFun) (msqrt : QFun) (cfg : Config) (st : ProcState)
    (acc : List Fill × List PartRow) (t : Track) :
    (trackStep bm msqrt cfg st acc t).isSome = true := by
  unfold trackStep
  split
  next heq =>
    exact absurd heq (Option.ne_none_iff_isSome.mpr (computeNSigma_isSome bm cfg st t))
  next pP pN heq =>
    split
    next heq2 =>
      exact absurd heq2 (Option.ne_none_iff_isSome.mpr (isSelectedTrack_kProton_isSome cfg t))
    next selP heq2 =>
      obtain ⟨b1, hb1⟩ := Option.isSome_iff_exists.mp
        (isSelectedTrackPID_isSome bm msqrt cfg st t ParticleSpecies.kProton false (pP, pN).1 1 (Or.inl rfl))
      obtain ⟨b2, hb2⟩ := Option.isSome_iff_exists.mp
        (isSelectedTrackPID_isSome bm msqrt cfg st t ParticleSpecies.kProton false (pP, pN).2 (-1) (Or.inl rfl))
      rw [hb1, hb2]
      cases selP <;> cases b1 <;> cases b2 <;> split_ifs <;> simp

/-- An `Option`-valued fold whose step never fails never fails. -/
theorem foldlM_isSome {α β : Type} (f : β → α → Option β)
    (h : ∀ b a, (f b a).isSome = true) :
    ∀ (l : List α) (init : β), (l.foldlM f init).isSome = true := by
  intro l
  induction l with
  | nil => intro init; rfl
  | cons a l ih =>
    intro init
    rw [List.foldlM_cons]
    obtain ⟨b, hb⟩ := Option.isSome_iff_exists.mp (h init a)
    rw [hb]
    exact ih b

/-- The run-change refresh touches only the Bethe-Bloch vectors and the
run-number cache: the mass fields come out unchanged. -/
theorem bbUpdateStep_preserves_masses (fetch : String → Option BBHist)
    (cfg : Config) (st : ProcState) (run : ℤ) :
    (bbUpdateStep fetch cfg st run).mMassElectron = st.mMassElectron ∧
    (bbUpdateStep fetch cfg st run).mMassPion = st.mMassPion ∧
    (bbUpdateStep fetch cfg st run).mMassProton = st.mMassProton ∧
    (bbUpdateStep fetch cfg st run).mMassLambda = st.mMassLambda ∧
    (bbUpdateStep fetch cfg st run).mMassDeuteron = st.mMassDeuteron := by
  unfold bbUpdateStep
  dsimp only
  split_ifs <;> exact ⟨rfl, rfl, rfl, rfl, rfl⟩

/-- C4: with `ConfIsRun3` false, `process` aborts through `LOG(fatal)`
before producing anything: no state change, no histogram fill, no CCDB fetch,
no output row. -/
theorem c4_run2_fatal (bm : BBFun) (msqrt : QFun) (fetch : String → Option BBHist)
    (cfg : Config) (st : ProcState) (col : Col) (tracks : List Track)
    (h : cfg.ConfIsRun3 = false) :
    process bm msqrt fetch cfg st col tracks = none := by
  simp [process, h]

/-- C5 (amended): across one `process` invocation the run-number cache and
the Bethe-Bloch vectors are the only task-state fields that may change; every
mass field holds the same value afterwards.  (The claim's "only the
run-number cache" is refuted by `c5_counterexample`: the Bethe-Bloch vectors
are reassigned on a run change.) -/
theorem c5_masses_preserved (bm : BBFun) (msqrt : QFun) (fetch : String → Option BBHist)
    (cfg : Config) (st : ProcState) (col : Col) (tracks : List Track)
    (st2 : ProcState) (out : Output)
    (h : process bm msqrt fetch cfg st col tracks = some (st2, out)) :
    st2.mMassElectron = st.mMassElectron ∧ st2.mMassPion = st.mMassPion ∧
    st2.mMassProton = st.mMassProton ∧ st2.mMassLambda = st.mMassLambda ∧
    st2.mMassDeuteron = st.mMassDeuteron := by
  have hst : st2 = bbUpdateStep fetch cfg st col.runNumber := by
    unfold process at h
    split_ifs at h
    · dsimp only at h
      split at h
      · exact absurd h (by simp)
      · simp only [Option.some.injEq, Prod.mk.injEq] at h
        exact h.1.symm
    · dsimp only at h
      simp only [Option.some.injEq, Prod.mk.injEq] at h
      exact h.1.symm
  rw [hst]
  exact bbUpdateStep_preserves_masses fetch cfg st col.runNumber

/-- C7: with `ConfIsRun3` true, `process` completes; it appends exactly one
`FemtoDreamCollisions` row when the event passes selection (z-vertex window
when enabled, sel8 when enabled), and appends nothing to either output table
when the event is rejected. -/
theorem c7_collision_row_iff_selected (bm : BBFun) (msqrt : QFun)
    (fetch : String → Option BBHist) (cfg : Config) (st : ProcState) (col : Col)
    (tracks : List Track) (h : cfg.ConfIsRun3 = true) :
    ∃ st2 out, process bm msqrt fetch cfg st col tracks = some (st2, out) ∧
      (out.collisionRows.length = 1 ↔
        ((cfg.ConfEvtSelectZvtx = false ∨ |col.posZ| ≤ cfg.ConfEvtZvtx) ∧
         (cfg.ConfEvtOfflineCheck = false ∨ col.sel8 = true))) ∧
      (¬ ((cfg.ConfEvtSelectZvtx = false ∨ |col.posZ| ≤ cfg.ConfEvtZvtx) ∧
          (cfg.ConfEvtOfflineCheck = false ∨ col.sel8 = true)) →
        out.collisionRows = [] ∧ out.partRows = []) := by
  have hiff := isSelectedEvent_eq_true_iff cfg col
  unfold process
  rw [h]
  simp only [Bool.true_eq_false, if_false]
  cases hsel : isSelectedEvent cfg col
  · simp only [Bool.false_eq_true, if_false]
    refine ⟨_, _, rfl, ?_, fun _ => ⟨rfl, rfl⟩⟩
    rw [← hiff]
    simp [hsel]
  · simp only [if_true]
    obtain ⟨res, hres⟩ := Option.isSome_iff_exists.mp
      (foldlM_isSome (trackStep bm msqrt cfg (bbUpdateStep fetch cfg st col.runNumber))
        (fun b a => trackStep_isSome bm msqrt cfg (bbUpdateStep fetch cfg st col.runNumber) b a)
        tracks ([], []))
    rw [hres]
    obtain ⟨tFills, tRows⟩ := res
    refine ⟨_, _, rfl, ?_, fun hc => absurd (hiff.mp hsel) hc⟩
    simp [hiff.mp hsel]

end CFFilterQA

namespace FT0Task

/-- Extraction through concatenated fill segments. -/
theorem fillsOf_append (a b : List Fill) (n : String) :
    fillsOf (a ++ b) n = fillsOf a n ++ fillsOf b n := by
  unfold fillsOf
  rw [List.filter_append, List.map_append]

/-- A segment none of whose fill names is `n` contributes nothing to `n`. -/
theorem fillsOf_eq_nil (fills : List Fill) (n : String)
    (h : ∀ f ∈ fills, f.1 ≠ n) : fillsOf fills n = [] := by
  unfold fillsOf
  have hf : fills.filter (fun f => f.1 = n) = [] := by
    rw [List.filter_eq_nil_iff]
    intro f hfm
    simpa using h f hfm
  rw [hf]
  rfl

/-- The generic shape of the per-channel loops: a base fill plus a
vertex-gated twin per channel; picking the base name yields exactly the
per-channel arguments, in order. -/
theorem fillsOf_chanLoop_base (l : List (ℕ × ℚ)) (vrt : Bool) (nm1 nm2 : String)
    (g : ℕ × ℚ → List ℚ) (hne : nm2 ≠ nm1) :
    fillsOf (l.flatMap fun c => (nm1, g c) :: (if vrt = true then [(nm2, g c)] else [])) nm1 =
      l.map g := by
  induction l with
  | nil => rfl
  | cons c l ih =>
    rw [List.flatMap_cons, List.map_cons]
    rw [show ((nm1, g c) :: (if vrt = true then [(nm2, g c)] else [])) ++
          (l.flatMap fun c => (nm1, g c) :: (if vrt = true then [(nm2, g c)] else [])) =
        [(nm1, g c)] ++ ((if vrt = true then [(nm2, g c)] else []) ++
          (l.flatMap fun c => (nm1, g c) :: (if vrt = true then [(nm2, g c)] else []))) from rfl]
    rw [fillsOf_append, fillsOf_append, ih]
    have h1 : fillsOf [(nm1, g c)] nm1 = [g c] := by
      simp [fillsOf]
    have h2 : fillsOf (if vrt = true then [(nm2, g c)] else []) nm1 = [] := by
      split
      · simp [fillsOf, hne]
      · rfl
    rw [h1, h2]
    rfl

/-- Same loops, picking the vertex-gated name when the trigger fired. -/
theorem fillsOf_chanLoop_vrt (l : List (ℕ × ℚ)) (vrt : Bool) (nm1 nm2 : String)
    (g : ℕ × ℚ → List ℚ) (hne : nm1 ≠ nm2) (hv : vrt = true) :
    fillsOf (l.flatMap fun c => (nm1, g c) :: (if vrt = true then [(nm2, g c)] else [])) nm2 =
      l.map g := by
  subst hv
  induction l with
  | nil => rfl
  | cons c l ih =>
    rw [List.flatMap_cons, List.map_cons]
    rw [show ((nm1, g c) :: (if true = true then [(nm2, g c)] else [])) ++
          (l.flatMap fun c => (nm1, g c) :: (if true = true then [(nm2, g c)] else [])) =
        [(nm1, g c)] ++ ([(nm2, g c)] ++
          (l.flatMap fun c => (nm1, g c) :: (if true = true then [(nm2, g c)] else []))) from rfl]
    rw [fillsOf_append, fillsOf_append, ih]
    have h1 : fillsOf [(nm1, g c)] nm2 = [] := by
      simp [fillsOf, hne]
    have h2 : fillsOf [(nm2, g c)] nm2 = [g c] := by
      simp [fillsOf]
    rw [h1, h2]
    rfl

/-- Same loops, picking any other name. -/
theorem fillsOf_chanLoop_ne (l : List (ℕ × ℚ)) (vrt : Bool) (nm1 nm2 n : String)
    (g : ℕ × ℚ → List ℚ) (h1 : n ≠ nm1) (h2 : n ≠ nm2) :
    fillsOf (l.flatMap fun c => (nm1, g c) :: (if vrt = true then [(nm2, g c)] else [])) n = [] := by
  apply fillsOf_eq_nil
  intro f hf
  rw [List.mem_flatMap] at hf
  obtain ⟨c, _, hfc⟩ := hf
  simp only [List.mem_cons] at hfc
  rcases hfc with rfl | hfc
  · exact Ne.symm h1
  · split at hfc
    · simp only [List.mem_singleton] at hfc
      subst hfc
      exact Ne.symm h2
    · cases hfc

/-- The trigger loop only fills the two trigger histograms. -/
theorem fillsOf_trgFills_ne (r : FT0Rec) (n : String)
    (h1 : n ≠ "hTriggers") (h2 : n ≠ "hTriggersPerBC") :
    fillsOf (trgFills r) n = [] := by
  apply fillsOf_eq_nil
  intro f hf
  unfold trgFills at hf
  rw [List.mem_flatMap] at hf
  obtain ⟨i, _, hfi⟩ := hf
  split at hfi
  · simp only [List.mem_cons, List.mem_singleton] at hfi
    rcases hfi with rfl | rfl | hfi
    · exact Ne.symm h1
    · exact Ne.symm h2
    · cases hfi
  · cases hfi

/-- The time-gated fill only fills `hVrtVsCollTime`. -/
theorem fillsOf_timeFills_ne (r : FT0Rec) (n : String)
    (h : n ≠ "hVrtVsCollTime") : fillsOf (timeFills r) n = [] := by
  apply fillsOf_eq_nil
  intro f hf
  unfold timeFills at hf
  split at hf
  · simp only [List.mem_singleton] at hf
    subst hf
    exact Ne.symm h
  · cases hf

/-- The vertex-triggered block only fills the five `_vrtTrg` histograms. -/
theorem fillsOf_vrtFills_ne (r : FT0Rec) (n : String)
    (h1 : n ≠ "hSumAmpAvsC_vrtTrg") (h2 : n ≠ "hSumAmpA_vrtTrg")
    (h3 : n ≠ "hSumAmpC_vrtTrg") (h4 : n ≠ "hSumAmp_vrtTrg")
    (h5 : n ≠ "hVrtVsCollTime_vrtTrg") : fillsOf (vrtFills r) n = [] := by
  apply fillsOf_eq_nil
  intro f hf
  unfold vrtFills at hf
  split at hf
  · rw [List.mem_append] at hf
    rcases hf with hf | hf
    · simp only [List.mem_cons, List.mem_singleton] at hf
      rcases hf with rfl | rfl | rfl | rfl | hf
      · exact Ne.symm h1
      · exact Ne.symm h2
      · exact Ne.symm h3
      · exact Ne.symm h4
      · cases hf
    · split at hf
      · simp only [List.mem_singleton] at hf
        subst hf
        exact Ne.symm h5
      · cases hf
  · cases hf

/-- C9: `hSumAmp` always receives the sum computed before the zero-amplitude
sentinel substitution; each vertex-triggered record fills `hSumAmp_vrtTrg`
with the sum of the substituted values; and for a vertex-triggered record
with an empty A-side or C-side channel list the two values differ. -/
theorem c9_hSumAmp_substitution (r : FT0Rec) :
    fillsOf (ft0Step r) "hSumAmp" = [[sumAmpA r + sumAmpC r]] ∧
    (isVrtTrg r = true →
      fillsOf (ft0Step r) "hSumAmp_vrtTrg" =
        [[substAmp (sumAmpA r) + substAmp (sumAmpC r)]]) ∧
    (isVrtTrg r = true → (r.channelA = [] ∨ r.channelC = []) →
      sumAmpA r + sumAmpC r ≠ substAmp (sumAmpA r) + substAmp (sumAmpC r)) := by
  refine ⟨?_, ?_, ?_⟩
  · unfold ft0Step ampFillsA ampFillsC
    rw [fillsOf_append, fillsOf_append, fillsOf_append, fillsOf_append, fillsOf_append]
    rw [fillsOf_chanLoop_ne _ _ _ _ _ _ (by decide) (by decide)]
    rw [fillsOf_chanLoop_ne _ _ _ _ _ _ (by decide) (by decide)]
    rw [fillsOf_timeFills_ne r _ (by decide)]
    rw [fillsOf_vrtFills_ne r _ (by decide) (by decide) (by decide) (by decide) (by decide)]
    rw [fillsOf_trgFills_ne r _ (by decide) (by decide)]
    simp [sumFills, fillsOf]
  · intro hv
    unfold ft0Step ampFillsA ampFillsC
    rw [fillsOf_append, fillsOf_append, fillsOf_append, fillsOf_append, fillsOf_append]
    rw [fillsOf_chanLoop_ne _ _ _ _ _ _ (by decide) (by decide)]
    rw [fillsOf_chanLoop_ne _ _ _ _ _ _ (by decide) (by decide)]
    rw [fillsOf_timeFills_ne r _ (by decide)]
    rw [fillsOf_trgFills_ne r _ (by decide) (by decide)]
    have hsum : fillsOf (sumFills r) "hSumAmp_vrtTrg" = [] := by
      simp [sumFills, fillsOf]
    rw [hsum]
    unfold vrtFills
    rw [hv]
    simp only [if_true]
    rw [fillsOf_append]
    have ht : fillsOf (if isTimeOk r = true then
        [("hVrtVsCollTime_vrtTrg", [vrtPos r, collTime r])] else []) "hSumAmp_vrtTrg" = [] := by
      split
      · simp [fillsOf]
      · rfl
    rw [ht]
    simp [fillsOf]
  · intro _ hempty
    have hs0 : substAmp 0 = -10000000000 := by norm_num [substAmp]
    rcases hempty with hA | hC
    · have h0 : sumAmpA r = 0 := by simp [sumAmpA, hA]
      by_cases hc : sumAmpC r = 0
      · rw [h0, hc, hs0]
        norm_num
      · have hsc : substAmp (sumAmpC r) = sumAmpC r := by simp [substAmp, hc]
        rw [h0, hs0, hsc]
        intro hEq
        linarith
    · have h0 : sumAmpC r = 0 := by simp [sumAmpC, hC]
      by_cases ha : sumAmpA r = 0
      · rw [h0, ha, hs0]
        norm_num
      · have hsa : substAmp (sumAmpA r) = sumAmpA r := by simp [substAmp, ha]
        rw [h0, hs0, hsa]
        intro hEq
        linarith

/-- C10: every `hAmpPerChannelID` fill (and, when vertex-triggered, every
`hAmpPerChannelID_VrtTrg` fill) uses the raw A-side channel ID and the C-side
channel ID shifted by +96; when all raw IDs are below 96, A-side entries lie
in [0, 96), C-side entries in [96, 192), and the two sides never coincide. -/
theorem c10_channel_ranges (r : FT0Rec)
    (hA : ∀ p ∈ r.channelA, p.1 < 96) (hC : ∀ p ∈ r.channelC, p.1 < 96) :
    fillsOf (ft0Step r) "hAmpPerChannelID" =
      (r.channelA.map fun ca => [(ca.1 : ℚ), ca.2]) ++
      (r.channelC.map fun cc => [((cc.1 + 96 : ℕ) : ℚ), cc.2]) ∧
    (isVrtTrg r = true →
      fillsOf (ft0Step r) "hAmpPerChannelID_VrtTrg" =
        (r.channelA.map fun ca => [(ca.1 : ℚ), ca.2]) ++
        (r.channelC.map fun cc => [((cc.1 + 96 : ℕ) : ℚ), cc.2])) ∧
    (∀ p ∈ r.channelA, p.1 < 96) ∧
    (∀ p ∈ r.channelC, 96 ≤ p.1 + 96 ∧ p.1 + 96 < 192) ∧
    (∀ p ∈ r.channelA, ∀ q ∈ r.channelC, p.1 ≠ q.1 + 96) := by
  refine ⟨?_, ?_, hA, ?_, ?_⟩
  · unfold ft0Step ampFillsA ampFillsC
    rw [fillsOf_append, fillsOf_append, fillsOf_append, fillsOf_append, fillsOf_append]
    rw [fillsOf_chanLoop_base _ _ _ _ _ (by decide)]
    rw [fillsOf_chanLoop_base _ _ _ _ _ (by decide)]
    have hs : fillsOf (sumFills r) "hAmpPerChannelID" = [] := by
      simp [sumFills, fillsOf]
    rw [hs, fillsOf_timeFills_ne r _ (by decide),
      fillsOf_vrtFills_ne r _ (by decide) (by decide) (by decide) (by decide) (by decide),
      fillsOf_trgFills_ne r _ (by decide) (by decide)]
    simp
  · intro hv
    unfold ft0Step ampFillsA ampFillsC
    rw [fillsOf_append, fillsOf_append, fillsOf_append, fillsOf_append, fillsOf_append]
    rw [fillsOf_chanLoop_vrt _ _ _ _ _ (by decide) hv]
    rw [fillsOf_chanLoop_vrt _ _ _ _ _ (by decide) hv]
    have hs : fillsOf (sumFills r) "hAmpPerChannelID_VrtTrg" = [] := by
      simp [sumFills, fillsOf]
    rw [hs, fillsOf_timeFills_ne r _ (by decide),
      fillsOf_vrtFills_ne r _ (by decide) (by decide) (by decide) (by decide) (by decide),
      fillsOf_trgFills_ne r _ (by decide) (by decide)]
    simp
  · intro p hp
    exact ⟨Nat.le_add_left 96 p.1, by have := hC p hp; omega⟩
  · intro p hp q hq
    have h1 := hA p hp
    omega

end FT0Task

namespace CFFilterQA

open CFTrigger

-- Rational arithmetic in Batteries is `@[irreducible]`, which blocks `decide`
-- on concrete inputs; from here on (the remainder of the file is witnesses
-- and counterexamples at concrete inputs) the default reducibility is
-- restored so that the embedded code evaluates in the kernel.  Reducibility
-- annotations carry no logical content.
section ConcreteEvaluation

set_option allowUnsafeReducibility true in
attribute [semireducible] Rat.add Rat.mul Rat.sub Rat.div Rat.neg Rat.inv

/-- C1 counterexample: the claim quantifies the species over
{Proton, Deuteron, Lambda}, but for Lambda the `ConfTPCNClustersMin` lookup
indexes column 2 of a table whose single row has only the columns "Proton"
and "Deuteron", so on a track passing every other cut `isSelectedTrack`
performs an out-of-range read instead of returning the boolean the claim
asserts. -/
theorem c1_counterexample :
    isSelectedTrack cfgEx trackEx ParticleSpecies.kLambda = none := by decide

/-- Witness for C1 at the default configuration, a passing track, and
species Proton. -/
theorem c1_witness :
    cfgEx.getNClusMin ParticleSpecies.kProton = some 60 ∧
    (isSelectedTrack cfgEx trackEx ParticleSpecies.kProton = some true ↔
      trackCutsSpec cfgEx trackEx ParticleSpecies.kProton 60) :=
  ⟨by decide, c1_isSelectedTrack_iff_cuts cfgEx trackEx ParticleSpecies.kProton 60 (by decide)⟩

/-- Witness for C2 at the default configuration, species Proton, charge +1. -/
theorem c2_witness :
    (ParticleSpecies.kProton = ParticleSpecies.kProton ∨
      ParticleSpecies.kProton = ParticleSpecies.kDeuteron) ∧
    (isSelectedTrackPID bmEx sqEx cfgEx stEx trackEx ParticleSpecies.kProton false (0, 0) 1 = some true ↔
      pidSelectionSpec sqEx cfgEx trackEx ParticleSpecies.kProton (0, 0) 1) :=
  ⟨Or.inl rfl,
    c2_isSelectedTrackPID_iff_spec bmEx sqEx cfgEx stEx trackEx
      ParticleSpecies.kProton (0, 0) 1 (Or.inl rfl)⟩

/-- Witness for C3: the post-`init` state has every Bethe-Bloch vector empty,
and the selection outcome is independent of the Bethe-Bloch formula. -/
theorem c3_witness :
    stEx.BBProton = [] ∧
    (setValuesBB none = [] ∧
     computeNSigma bmEx cfgEx stEx trackEx =
       some ((trackEx.tpcNSigmaPr, trackEx.tpcNSigmaDe),
             (trackEx.tpcNSigmaPr, trackEx.tpcNSigmaDe)) ∧
     isSelectedTrackPID bmEx sqEx cfgEx stEx trackEx ParticleSpecies.kProton true (5, 0) 1 =
       isSelectedTrackPID bmEx2 sqEx cfgEx stEx trackEx ParticleSpecies.kProton true (5, 0) 1 ∧
     (∀ run : ℤ,
       (bbUpdateStep (fun _ => none) cfgEx stEx run).BBProton = [] ∧
       (bbUpdateStep (fun _ => none) cfgEx stEx run).BBAntiproton = [] ∧
       (bbUpdateStep (fun _ => none) cfgEx stEx run).BBDeuteron = [] ∧
       (bbUpdateStep (fun _ => none) cfgEx stEx run).BBAntideuteron = [] ∧
       (bbUpdateStep (fun _ => none) cfgEx stEx run).BBPion = [] ∧
       (bbUpdateStep (fun _ => none) cfgEx stEx run).BBAntipion = [] ∧
       (bbUpdateStep (fun _ => none) cfgEx stEx run).BBElectron = [] ∧
       (bbUpdateStep (fun _ => none) cfgEx stEx run).BBAntielectron = [])) :=
  ⟨rfl,
   c3_missing_ccdb_nominal_pid bmEx bmEx2 sqEx cfgEx stEx trackEx
     ParticleSpecies.kProton true (5, 0) 1 rfl rfl rfl rfl rfl rfl rfl rfl⟩

/-- Witness for C4 at a concrete run-2 configuration. -/
theorem c4_witness :
    ({ cfgEx with ConfIsRun3 := false } : Config).ConfIsRun3 = false ∧
    process bmEx sqEx (fun _ => none) { cfgEx with ConfIsRun3 := false } stEx colEx [] = none :=
  ⟨rfl, c4_run2_fatal bmEx sqEx (fun _ => none) { cfgEx with ConfIsRun3 := false } stEx colEx [] rfl⟩

/-- C5 counterexample: with manual proton PID enabled and a run change, one
`process` invocation reassigns the task-struct field `BBProton` (here from
the empty vector to the six retrieved values), so the run-number cache fields
are not the only fields modified. -/
theorem c5_counterexample :
    (process bmEx sqEx (fun _ => some { bb1 := 1, bb2 := 1, bb3 := 1, bb4 := 1, bb5 := 1, resolution := 1 })
        { cfgEx with ConfUseManualPIDproton := true } stEx colEx5 []).map
        (fun r => r.1.BBProton) = some [1, 1, 1, 1, 1, 1] ∧
    stEx.BBProton = [] := by
  constructor
  · decide
  · rfl

/-- Witness for C5 (amended) at a concrete run without manual PID: the state
is returned unchanged, in particular the masses. -/
theorem c5_witness :
    process bmEx sqEx (fun _ => none) cfgEx stEx colEx [] =
      some (stEx,
        { collisionRows := [{ posZ := 0, multFV0M := 0, multNTracksPV := 0, spher := -2, magField := -2 }],
          partRows := [],
          histFills := [("EventCuts/fMultiplicityBefore", [0]), ("EventCuts/fZvtxBefore", [0]),
                        ("EventCuts/fMultiplicityAfter", [0]), ("EventCuts/fZvtxAfter", [0])] }) ∧
    (stEx.mMassElectron = stEx.mMassElectron ∧ stEx.mMassPion = stEx.mMassPion ∧
     stEx.mMassProton = stEx.mMassProton ∧ stEx.mMassLambda = stEx.mMassLambda ∧
     stEx.mMassDeuteron = stEx.mMassDeuteron) :=
  ⟨by decide,
   c5_masses_preserved bmEx sqEx (fun _ => none) cfgEx stEx colEx [] stEx
     { collisionRows := [{ posZ := 0, multFV0M := 0, multNTracksPV := 0, spher := -2, magField := -2 }],
       partRows := [],
       histFills := [("EventCuts/fMultiplicityBefore", [0]), ("EventCuts/fZvtxBefore", [0]),
                     ("EventCuts/fMultiplicityAfter", [0]), ("EventCuts/fZvtxAfter", [0])] }
     (by decide)⟩

/-- C6 counterexample: with `Rejection` and manual pion PID enabled, two
calls of `isSelectedTrackPID` with identical explicit arguments but different
stored `BBPion` vectors return different results, so the predicate is not a
function of its explicit arguments alone. -/
theorem c6_counterexample :
    isSelectedTrackPID bmEx sqEx { cfgEx with ConfUseManualPIDpion := true } stEx
      trackEx ParticleSpecies.kProton true (5, 0) 1 = some true ∧
    isSelectedTrackPID bmEx sqEx { cfgEx with ConfUseManualPIDpion := true }
      { stEx with BBPion := [0, 0, 0, 0, 0, 1] }
      trackEx ParticleSpecies.kProton true (5, 0) 1 = some false := by
  constructor
  · decide
  · decide

/-- Witness for C6 (amended): with `Rejection` disabled the result is the
same in two states that differ in a Bethe-Bloch vector. -/
theorem c6_witness :
    (false = false ∨
      (cfgEx.ConfUseManualPIDpion = false ∧ cfgEx.ConfUseManualPIDel = false)) ∧
    isSelectedTrackPID bmEx sqEx cfgEx stEx trackEx ParticleSpecies.kProton false (0, 0) 1 =
      isSelectedTrackPID bmEx sqEx cfgEx { stEx with BBPion := [0, 0, 0, 0, 0, 1] }
        trackEx ParticleSpecies.kProton false (0, 0) 1 :=
  ⟨Or.inl rfl,
   c6_pid_state_independent bmEx sqEx cfgEx stEx { stEx with BBPion := [0, 0, 0, 0, 0, 1] }
     trackEx ParticleSpecies.kProton false (0, 0) 1 (Or.inl rfl)⟩

/-- Witness for C7 at the default configuration and a passing collision. -/
theorem c7_witness :
    cfgEx.ConfIsRun3 = true ∧
    (∃ st2 out, process bmEx sqEx (fun _ => none) cfgEx stEx colEx [trackEx] = some (st2, out) ∧
      (out.collisionRows.length = 1 ↔
        ((cfgEx.ConfEvtSelectZvtx = false ∨ |colEx.posZ| ≤ cfgEx.ConfEvtZvtx) ∧
         (cfgEx.ConfEvtOfflineCheck = false ∨ colEx.sel8 = true))) ∧
      (¬ ((cfgEx.ConfEvtSelectZvtx = false ∨ |colEx.posZ| ≤ cfgEx.ConfEvtZvtx) ∧
          (cfgEx.ConfEvtOfflineCheck = false ∨ colEx.sel8 = true)) →
        out.collisionRows = [] ∧ out.partRows = [])) :=
  ⟨rfl, c7_collision_row_iff_selected bmEx sqEx (fun _ => none) cfgEx stEx colEx [trackEx] rfl⟩

/-- Witness for C8: the guards hold and all three components evaluate on
concrete inputs. -/
theorem c8_witness :
    (([0, 0, 0, 0, 0, 1] : List ℚ).length = 6 ∧
     (updatePID bmEx trackEx 1 [0, 0, 0, 0, 0, 1]).isSome = true) ∧
    (computeNSigma bmEx cfgEx stEx trackEx).isSome = true ∧
    (isSelectedTrackPID bmEx sqEx cfgEx stEx trackEx ParticleSpecies.kProton true (5, 0) 1).isSome = true :=
  ⟨⟨by decide,
    (c8_updatePID_guarded bmEx sqEx cfgEx stEx trackEx ParticleSpecies.kProton true (5, 0) 1).1
      1 [0, 0, 0, 0, 0, 1] (by decide)⟩,
   (c8_updatePID_guarded bmEx sqEx cfgEx stEx trackEx ParticleSpecies.kProton true (5, 0) 1).2.1,
   (c8_updatePID_guarded bmEx sqEx cfgEx stEx trackEx ParticleSpecies.kProton true (5, 0) 1).2.2
     (Or.inl rfl)⟩

end ConcreteEvaluation

end CFFilterQA

namespace FT0Task

/-- Witness for C9 at a concrete vertex-triggered record with an empty
A-side: the pre-substitution sum is 10, the post-substitution sum is
-10000000000 + 10. -/
theorem c9_witness :
    isVrtTrg rEx9 = true ∧ rEx9.channelA = [] ∧
    fillsOf (ft0Step rEx9) "hSumAmp" = [[sumAmpA rEx9 + sumAmpC rEx9]] ∧
    fillsOf (ft0Step rEx9) "hSumAmp_vrtTrg" =
      [[substAmp (sumAmpA rEx9) + substAmp (sumAmpC rEx9)]] ∧
    sumAmpA rEx9 + sumAmpC rEx9 ≠ substAmp (sumAmpA rEx9) + substAmp (sumAmpC rEx9) :=
  ⟨by decide, rfl,
   (c9_hSumAmp_substitution rEx9).1,
   (c9_hSumAmp_substitution rEx9).2.1 (by decide),
   (c9_hSumAmp_substitution rEx9).2.2 (by decide) (Or.inl rfl)⟩

/-- Witness for C10 at a concrete record with one channel per side. -/
theorem c10_witness :
    (∀ p ∈ rEx10.channelA, p.1 < 96) ∧ (∀ p ∈ rEx10.channelC, p.1 < 96) ∧
    fillsOf (ft0Step rEx10) "hAmpPerChannelID" =
      (rEx10.channelA.map fun ca => [(ca.1 : ℚ), ca.2]) ++
      (rEx10.channelC.map fun cc => [((cc.1 + 96 : ℕ) : ℚ), cc.2]) ∧
    (∀ p ∈ rEx10.channelA, ∀ q ∈ rEx10.channelC, p.1 ≠ q.1 + 96) :=
  ⟨by decide, by decide,
   (c10_channel_ranges rEx10 (by decide) (by decide)).1,
   (c10_channel_ranges rEx10 (by decide) (by decide)).2.2.2.2⟩

end FT0Task
